import Mathlib

/-!
Verification of the report codec, pagination engine and worker orchestration of
the Verum Omnis application (`src/components/FileUpload.tsx`,
`src/services/geminiService.ts`, `src/services/report.worker.js`).

The wire codec is the protobuf.js runtime applied to the `protoDefinition`
schema embedded in the source.  We model the proto3 wire format at the byte
level: bytes are `Nat` (meaningful values `< 256`), varints are LEB128,
strings and nested messages are length-delimited.  String payloads are
serialized as one varint per Unicode code point; this stands in for UTF-8 —
both are injective, self-delimiting byte serializations with a partial
inverse, and no claim below depends on which of the two is used.
-/

/-! ## Varints (LEB128), the integer encoding used by the wire format -/

/-- Fuel-driven worker for `encodeVarint`; structural recursion on the fuel so
the kernel can evaluate it on concrete inputs.  `encodeVarintGo n n` is the
standard little-endian base-128 varint of `n`. -/
def encodeVarintGo : Nat → Nat → List Nat
  | 0, n => [n % 128]
  | f + 1, n => if n < 128 then [n] else (n % 128 + 128) :: encodeVarintGo f (n / 128)


/-- Little-endian base-128 varint encoding of a natural number, as written by
the protobuf.js `Writer` for tags, lengths, uint32 and bool values. -/
def encodeVarint (n : Nat) : List Nat := encodeVarintGo n n


/-- Varint decoding: returns the decoded value and the remaining bytes, or
`none` when the buffer ends inside a varint (protobuf.js throws a
`RangeError` there). -/
def decodeVarint : List Nat → Option (Nat × List Nat)
  | [] => none
  | b :: bs =>
    if b < 128 then some (b, bs)
    else
      match decodeVarint bs with
      | none => none
      | some (m, rest) => some (b % 128 + 128 * m, rest)


/-! ## Exact splitting, used for length-delimited payloads -/

/-- Take exactly `n` bytes off the front of a buffer, or fail when the buffer
is shorter (protobuf.js throws a `RangeError` there). -/
def splitAtExact : Nat → List Nat → Option (List Nat × List Nat)
  | 0, l => some ([], l)
  | _ + 1, [] => none
  | n + 1, b :: bs =>
    match splitAtExact n bs with
    | none => none
    | some (xs, rest) => some (b :: xs, rest)


/-! ## String payloads -/

/-- Byte serialization of one character: the varint of its code point (the
model's stand-in for its UTF-8 bytes). -/
def charBytes (c : Char) : List Nat := encodeVarint c.toNat


/-- Byte serialization of a list of characters. -/
def chBytesList : List Char → List Nat
  | [] => []
  | c :: cs => charBytes c ++ chBytesList cs


/-- Byte serialization of a string payload. -/
def strBytes (s : String) : List Nat := chBytesList s.data


/-- Fuel-driven inverse of `chBytesList`: reads one code point varint at a
time, failing on a truncated varint or an invalid code point. -/
def charsOfBytes : Nat → List Nat → Option (List Char)
  | _, [] => some []
  | 0, _ :: _ => none
  | f + 1, l =>
    match decodeVarint l with
    | none => none
    | some (n, rest) =>
      if n.isValidChar then
        match charsOfBytes f rest with
        | none => none
        | some cs => some (Char.ofNat n :: cs)
      else none


/-- Decode a string payload from its bytes. -/
def bytesToStr (l : List Nat) : Option String :=
  match charsOfBytes l.length l with
  | none => none
  | some cs => some ⟨cs⟩


/-! ## The Report data model

Mirrors the TypeScript interfaces (copied into `src/services/geminiService.ts`
as the worker's local type declarations) and the shape produced by
`fromProtoPayload`.  The three nested messages are `Option`s because
`toProtoPayload` in `src/components/FileUpload.tsx` explicitly guards each of
them (`result.preAnalysisChecks ? {...} : undefined`). -/

structure EvidenceSpotlightItem where
  title : String
  significance : String
  evidenceReference : String
  pageNumber : Nat
  deriving DecidableEq


structure EvidenceIndexItem where
  id : String
  description : String
  pageNumber : Nat
  documentReference : String
  deriving DecidableEq


structure LegalSubjectFinding where
  subject : String
  keyPoints : List String
  evidence : String
  severity : String
  deriving DecidableEq


structure DishonestyFinding where
  flag : String
  description : String
  evidence : String
  severity : String
  deriving DecidableEq


structure RecommendedAction where
  jurisdiction : String
  action : String
  legalBasis : String
  deriving DecidableEq


structure TopLiability where
  name : String
  severity : String
  deriving DecidableEq


structure PreAnalysisChecks where
  extractionProtocol : Bool
  preservationFlags : Bool
  scope : Bool
  deriving DecidableEq


structure ActionableOutput where
  topLiabilities : List TopLiability
  dishonestyScore : Nat
  recommendedActions : List RecommendedAction
  summary : String
  deriving DecidableEq


structure PostAnalysisDeclaration where
  extractionComplete : Bool
  integritySealsVerified : Bool
  logs : String
  «seal» : String
  deriving DecidableEq


structure AnalysisResult where
  documentHash : String
  fileName : String
  caseNarrative : String
  evidenceSpotlight : List EvidenceSpotlightItem
  evidenceIndex : List EvidenceIndexItem
  preAnalysisChecks : Option PreAnalysisChecks
  criticalLegalSubjects : List LegalSubjectFinding
  dishonestyDetectionMatrix : List DishonestyFinding
  actionableOutput : Option ActionableOutput
  postAnalysisDeclaration : Option PostAnalysisDeclaration
  deriving DecidableEq


/-- The ambient browser environment visible to the code: `now` is what
`new Date().toISOString()` returns at the moment of the call. -/
structure Env where
  now : String
  deriving DecidableEq


/-- `const PROTOCOL_VERSION = 5` in `src/components/FileUpload.tsx`. -/
def PROTOCOL_VERSION : Nat := 5


/-! ## The wire-schema payload (snake_case), as built by `toProtoPayload` -/

structure SpotlightPayload where
  title : String
  significance : String
  evidence_reference : String
  page_number : Nat
  deriving DecidableEq


structure IndexPayload where
  id : String
  description : String
  page_number : Nat
  document_reference : String
  deriving DecidableEq


structure LegalSubjectPayload where
  subject : String
  key_points : List String
  evidence : String
  severity : String
  deriving DecidableEq


structure DishonestyPayload where
  flag : String
  description : String
  evidence : String
  severity : String
  deriving DecidableEq


structure RecommendedActionPayload where
  jurisdiction : String
  action : String
  legal_basis : String
  deriving DecidableEq


structure PreAnalysisChecksPayload where
  extraction_protocol : Bool
  preservation_flags : Bool
  scope : Bool
  deriving DecidableEq


structure ActionableOutputPayload where
  top_liabilities : List TopLiability
  dishonesty_score : Nat
  recommended_actions : List RecommendedActionPayload
  summary : String
  deriving DecidableEq


structure PostAnalysisDeclarationPayload where
  extraction_complete : Bool
  integrity_seals_verified : Bool
  logs : String
  «seal» : String
  deriving DecidableEq


/-- The payload handed to protobuf.js (`verumomnis.AnalysisResult`), field
numbers 1–12.  Note `top_liabilities` reuses the camelCase `TopLiability`
objects unchanged — the source passes `result.actionableOutput.topLiabilities`
through without renaming (its two field names coincide in both conventions). -/
structure ProtoPayload where
  protocol_version : Nat
  analysis_timestamp_utc : String
  document_hash : String
  file_name : String
  case_narrative : String
  evidence_spotlight : List SpotlightPayload
  evidence_index : List IndexPayload
  pre_analysis_checks : Option PreAnalysisChecksPayload
  critical_legal_subjects : List LegalSubjectPayload
  dishonesty_detection_matrix : List DishonestyPayload
  actionable_output : Option ActionableOutputPayload
  post_analysis_declaration : Option PostAnalysisDeclarationPayload
  deriving DecidableEq


/-- `toProtoPayload` from `src/components/FileUpload.tsx` (lines 185–240):
camelCase model → snake_case wire payload.  `protocol_version` is the fixed
`PROTOCOL_VERSION`; `analysis_timestamp_utc` is `new Date().toISOString()`,
i.e. the ambient clock — the one place the encoder reads the environment. -/
def toProtoPayload (result : AnalysisResult) (env : Env) : ProtoPayload :=
  { protocol_version := PROTOCOL_VERSION
    analysis_timestamp_utc := env.now
    document_hash := result.documentHash
    file_name := result.fileName
    case_narrative := result.caseNarrative
    evidence_spotlight := result.evidenceSpotlight.map (fun item =>
      { title := item.title
        significance := item.significance
        evidence_reference := item.evidenceReference
        page_number := item.pageNumber })
    evidence_index := result.evidenceIndex.map (fun item =>
      { id := item.id
        description := item.description
        page_number := item.pageNumber
        document_reference := item.documentReference })
    pre_analysis_checks := result.preAnalysisChecks.map (fun p =>
      { extraction_protocol := p.extractionProtocol
        preservation_flags := p.preservationFlags
        scope := p.scope })
    critical_legal_subjects := result.criticalLegalSubjects.map (fun item =>
      { subject := item.subject
        key_points := item.keyPoints
        evidence := item.evidence
        severity := item.severity })
    dishonesty_detection_matrix := result.dishonestyDetectionMatrix.map (fun item =>
      { flag := item.flag
        description := item.description
        evidence := item.evidence
        severity := item.severity })
    actionable_output := result.actionableOutput.map (fun a =>
      { top_liabilities := a.topLiabilities
        dishonesty_score := a.dishonestyScore
        recommended_actions := a.recommendedActions.map (fun item =>
          { jurisdiction := item.jurisdiction
            action := item.action
            legal_basis := item.legalBasis })
        summary := a.summary })
    post_analysis_declaration := result.postAnalysisDeclaration.map (fun p =>
      { extraction_complete := p.extractionComplete
        integrity_seals_verified := p.integritySealsVerified
        logs := p.logs
        «seal» := p.seal }) }


/-- Models `ReportMessage.verify(payload)` (protobuf.js generated verifier)
on the payload built by `toProtoPayload`.  Every check the generated verifier
performs for this schema is a JavaScript *type* check: `$util.isInteger` on
`protocol_version`, `page_number` and `dishonesty_score`; `$util.isString` on
every string field (including every `severity`); `Array.isArray` plus
recursive verification on repeated fields; `typeof === "boolean"` on the
check/declaration flags; and a recursive verify on each nested message that
is a non-null own property (an absent optional message is skipped, never an
error).  The schema declares `severity` as `string`, not as an enum, so the
verifier has no set-membership check on severity values, and it has no range
check on `dishonesty_score`.  On a well-typed payload every one of these
checks passes, so the verifier returns `null`: -/
def verifyPayload (_payload : ProtoPayload) : Option String := none


/-! ## Wire encoding (protobuf.js `ReportMessage.encode(message).finish()`)

protobuf.js writes a singular field iff it is a non-null own property of the
created message; `toProtoPayload` sets every scalar property, so scalars are
always written, even when they hold the proto3 default ("" / 0 / false).
Repeated fields are written iff nonempty; optional message fields iff
present.  `Writer.uint32` coerces with `>>> 0`, i.e. mod 2^32. -/

def encVarintField (fno v : Nat) : List Nat :=
  encodeVarint (fno * 8) ++ encodeVarint (v % 2 ^ 32)


def encBoolField (fno : Nat) (b : Bool) : List Nat :=
  encodeVarint (fno * 8) ++ encodeVarint (if b then 1 else 0)


def encLenField (fno : Nat) (payload : List Nat) : List Nat :=
  encodeVarint (fno * 8 + 2) ++ encodeVarint payload.length ++ payload


def encStrField (fno : Nat) (s : String) : List Nat := encLenField fno (strBytes s)


def encRepeatedMsg {α : Type} (fno : Nat) (enc : α → List Nat) : List α → List Nat
  | [] => []
  | x :: xs => encLenField fno (enc x) ++ encRepeatedMsg fno enc xs


def encRepeatedStr (fno : Nat) : List String → List Nat
  | [] => []
  | s :: ss => encStrField fno s ++ encRepeatedStr fno ss


def encOptMsg {α : Type} (fno : Nat) (enc : α → List Nat) : Option α → List Nat
  | none => []
  | some m => encLenField fno (enc m)


def encSpotlight (m : SpotlightPayload) : List Nat :=
  encStrField 1 m.title ++ encStrField 2 m.significance ++
    encStrField 3 m.evidence_reference ++ encVarintField 4 m.page_number


def encIndex (m : IndexPayload) : List Nat :=
  encStrField 1 m.id ++ encStrField 2 m.description ++
    encVarintField 3 m.page_number ++ encStrField 4 m.document_reference


def encLegal (m : LegalSubjectPayload) : List Nat :=
  encStrField 1 m.subject ++ encRepeatedStr 2 m.key_points ++
    encStrField 3 m.evidence ++ encStrField 4 m.severity


def encDishonesty (m : DishonestyPayload) : List Nat :=
  encStrField 1 m.flag ++ encStrField 2 m.description ++
    encStrField 3 m.evidence ++ encStrField 4 m.severity


def encRecAction (m : RecommendedActionPayload) : List Nat :=
  encStrField 1 m.jurisdiction ++ encStrField 2 m.action ++ encStrField 3 m.legal_basis


def encTopLiability (m : TopLiability) : List Nat :=
  encStrField 1 m.name ++ encStrField 2 m.severity


def encPreChecks (m : PreAnalysisChecksPayload) : List Nat :=
  encBoolField 1 m.extraction_protocol ++ encBoolField 2 m.preservation_flags ++
    encBoolField 3 m.scope


def encActOutput (m : ActionableOutputPayload) : List Nat :=
  encRepeatedMsg 1 encTopLiability m.top_liabilities ++
    encVarintField 2 m.dishonesty_score ++
    encRepeatedMsg 3 encRecAction m.recommended_actions ++
    encStrField 4 m.summary


def encPostDecl (m : PostAnalysisDeclarationPayload) : List Nat :=
  encBoolField 1 m.extraction_complete ++ encBoolField 2 m.integrity_seals_verified ++
    encStrField 3 m.logs ++ encStrField 4 m.seal


/-- The full wire buffer for one `verumomnis.AnalysisResult` message, fields
written in declaration order 1–12. -/
def encodePayload (p : ProtoPayload) : List Nat :=
  encVarintField 1 p.protocol_version ++
    encStrField 2 p.analysis_timestamp_utc ++
    encStrField 3 p.document_hash ++
    encStrField 4 p.file_name ++
    encStrField 5 p.case_narrative ++
    encRepeatedMsg 6 encSpotlight p.evidence_spotlight ++
    encRepeatedMsg 7 encIndex p.evidence_index ++
    encOptMsg 8 encPreChecks p.pre_analysis_checks ++
    encRepeatedMsg 9 encLegal p.critical_legal_subjects ++
    encRepeatedMsg 10 encDishonesty p.dishonesty_detection_matrix ++
    encOptMsg 11 encActOutput p.actionable_output ++
    encOptMsg 12 encPostDecl p.post_analysis_declaration


/-- The buffer suffix following the two wire-metadata fields (field 1,
`protocol_version`, and field 2, `analysis_timestamp_utc`): fields 3–12 of
`encodePayload`, in order. -/
def encodeTail (p : ProtoPayload) : List Nat :=
  encStrField 3 p.document_hash ++
    encStrField 4 p.file_name ++
    encStrField 5 p.case_narrative ++
    encRepeatedMsg 6 encSpotlight p.evidence_spotlight ++
    encRepeatedMsg 7 encIndex p.evidence_index ++
    encOptMsg 8 encPreChecks p.pre_analysis_checks ++
    encRepeatedMsg 9 encLegal p.critical_legal_subjects ++
    encRepeatedMsg 10 encDishonesty p.dishonesty_detection_matrix ++
    encOptMsg 11 encActOutput p.actionable_output ++
    encOptMsg 12 encPostDecl p.post_analysis_declaration


/-- `encodeReport` from `src/components/FileUpload.tsx` (lines 296–314):
build the snake_case payload, run the generated verifier (throwing its
message on failure), then encode.  The source's early `return null` when the
protobuf.js script has not loaded is an environment failure outside the
model. -/
def encodeReport (result : AnalysisResult) (env : Env) : Except String (List Nat) :=
  let payload := toProtoPayload result env
  match verifyPayload payload with
  | some errMsg => .error errMsg
  | none => .ok (encodePayload payload)


/-! ## Wire decoding (protobuf.js generated `decode` + `toObject`)

The generated decoder loops over the buffer: it reads a tag varint, switches
on the *field number* (`tag >>> 3`) and reads the field's declared type —
known fields are read by type without consulting the wire-type bits, while
unknown field numbers are skipped according to their wire type
(`Reader.skipType`).  The model mirrors this.  `skipType`'s group handling
(wire types 3/4) is modeled as an error; the encoder never emits groups and
no claim involves them. -/

def readLenDelim (bytes : List Nat) : Except String (List Nat × List Nat) :=
  match decodeVarint bytes with
  | none => .error "RangeError: index out of range"
  | some (len, rest) =>
    match splitAtExact len rest with
    | none => .error "RangeError: index out of range"
    | some (payload, rest2) => .ok (payload, rest2)


def readStr (bytes : List Nat) : Except String (String × List Nat) :=
  match readLenDelim bytes with
  | .error e => .error e
  | .ok (payload, rest) =>
    match bytesToStr payload with
    | none => .error "invalid string payload"
    | some s => .ok (s, rest)


/-- `Reader.uint32`: a varint truncated to 32 bits. -/
def readU32 (bytes : List Nat) : Except String (Nat × List Nat) :=
  match decodeVarint bytes with
  | none => .error "RangeError: index out of range"
  | some (n, rest) => .ok (n % 2 ^ 32, rest)


/-- `Reader.bool`: a varint compared against zero. -/
def readBool (bytes : List Nat) : Except String (Bool × List Nat) :=
  match decodeVarint bytes with
  | none => .error "RangeError: index out of range"
  | some (n, rest) => .ok (n != 0, rest)


/-- `Reader.skipType` for an unknown field number. -/
def skipField (wt : Nat) (bytes : List Nat) : Except String (List Nat) :=
  match wt with
  | 0 =>
    match decodeVarint bytes with
    | none => .error "RangeError: index out of range"
    | some (_, rest) => .ok rest
  | 1 =>
    match splitAtExact 8 bytes with
    | none => .error "RangeError: index out of range"
    | some (_, rest) => .ok rest
  | 2 =>
    match readLenDelim bytes with
    | .error e => .error e
    | .ok (_, rest) => .ok rest
  | 5 =>
    match splitAtExact 4 bytes with
    | none => .error "RangeError: index out of range"
    | some (_, rest) => .ok rest
  | _ => .error "invalid wire type"


/-- The generated decode loop, generic in the per-message field handler.
`handler fno wt acc rest` reads one field body (the bytes after the tag) and
returns the updated accumulator and remaining bytes.  Fuel is structural so
the kernel can evaluate concrete runs; `runParse` supplies `bytes.length`,
which always suffices because every iteration consumes at least the tag
byte. -/
def parseMsg {α : Type} (handler : Nat → Nat → α → List Nat → Except String (α × List Nat)) :
    Nat → α → List Nat → Except String α
  | _, acc, [] => .ok acc
  | 0, _, _ :: _ => .error "fuel exhausted"
  | f + 1, acc, b :: bs =>
    match decodeVarint (b :: bs) with
    | none => .error "RangeError: index out of range"
    | some (tag, rest) =>
      match handler (tag / 8) (tag % 8) acc rest with
      | .error e => .error e
      | .ok (acc₂, rest₂) => parseMsg handler f acc₂ rest₂


def runParse {α : Type} (handler : Nat → Nat → α → List Nat → Except String (α × List Nat))
    (acc : α) (bytes : List Nat) : Except String α :=
  parseMsg handler bytes.length acc bytes


/-- A handler is a *consumer*: on success the remaining bytes are no longer
than its input.  All handlers below satisfy this. -/
def HandlerLen {α : Type} (handler : Nat → Nat → α → List Nat → Except String (α × List Nat)) : Prop :=
  ∀ fno wt acc rest acc₂ rest₂, handler fno wt acc rest = .ok (acc₂, rest₂) → rest₂.length ≤ rest.length


/-! ## Field handlers, one per message type of the schema -/

/-- Read one value with `rd` and store it with `upd` (a known singular field
in the generated decoder). -/
def viaRd {α β : Type} (rd : List Nat → Except String (β × List Nat)) (upd : α → β → α)
    (acc : α) (bytes : List Nat) : Except String (α × List Nat) :=
  match rd bytes with
  | .error e => .error e
  | .ok (v, rest) => .ok (upd acc v, rest)


/-- Skip an unknown field (the generated decoder's `default` case). -/
def viaSkip {α : Type} (wt : Nat) (acc : α) (bytes : List Nat) :
    Except String (α × List Nat) :=
  match skipField wt bytes with
  | .error e => .error e
  | .ok rest => .ok (acc, rest)


/-- Read one length-delimited nested message and parse it with `handler`
starting from the message type's defaults (protobuf.js constructor
defaults). -/
def readMsg {α : Type} (handler : Nat → Nat → α → List Nat → Except String (α × List Nat))
    (init : α) (bytes : List Nat) : Except String (α × List Nat) :=
  match readLenDelim bytes with
  | .error e => .error e
  | .ok (payload, rest) =>
    match runParse handler init payload with
    | .error e => .error e
    | .ok item => .ok (item, rest)


def spotlightDefault : SpotlightPayload := ⟨"", "", "", 0⟩


def indexDefault : IndexPayload := ⟨"", "", 0, ""⟩


def legalDefault : LegalSubjectPayload := ⟨"", [], "", ""⟩


def dishonestyDefault : DishonestyPayload := ⟨"", "", "", ""⟩


def recActionDefault : RecommendedActionPayload := ⟨"", "", ""⟩


def topLiabilityDefault : TopLiability := ⟨"", ""⟩


def preChecksDefault : PreAnalysisChecksPayload := ⟨false, false, false⟩


def actOutputDefault : ActionableOutputPayload := ⟨[], 0, [], ""⟩


def postDeclDefault : PostAnalysisDeclarationPayload := ⟨false, false, "", ""⟩


def payloadDefault : ProtoPayload :=
  ⟨0, "", "", "", "", [], [], none, [], [], none, none⟩


def spotHandler (fno wt : Nat) (acc : SpotlightPayload) (bytes : List Nat) :
    Except String (SpotlightPayload × List Nat) :=
  match fno with
  | 1 => viaRd readStr (fun a s => { a with title := s }) acc bytes
  | 2 => viaRd readStr (fun a s => { a with significance := s }) acc bytes
  | 3 => viaRd readStr (fun a s => { a with evidence_reference := s }) acc bytes
  | 4 => viaRd readU32 (fun a v => { a with page_number := v }) acc bytes
  | _ => viaSkip wt acc bytes


def indexHandler (fno wt : Nat) (acc : IndexPayload) (bytes : List Nat) :
    Except String (IndexPayload × List Nat) :=
  match fno with
  | 1 => viaRd readStr (fun a s => { a with id := s }) acc bytes
  | 2 => viaRd readStr (fun a s => { a with description := s }) acc bytes
  | 3 => viaRd readU32 (fun a v => { a with page_number := v }) acc bytes
  | 4 => viaRd readStr (fun a s => { a with document_reference := s }) acc bytes
  | _ => viaSkip wt acc bytes


def legalHandler (fno wt : Nat) (acc : LegalSubjectPayload) (bytes : List Nat) :
    Except String (LegalSubjectPayload × List Nat) :=
  match fno with
  | 1 => viaRd readStr (fun a s => { a with subject := s }) acc bytes
  | 2 => viaRd readStr (fun a s => { a with key_points := a.key_points ++ [s] }) acc bytes
  | 3 => viaRd readStr (fun a s => { a with evidence := s }) acc bytes
  | 4 => viaRd readStr (fun a s => { a with severity := s }) acc bytes
  | _ => viaSkip wt acc bytes


def dishonestyHandler (fno wt : Nat) (acc : DishonestyPayload) (bytes : List Nat) :
    Except String (DishonestyPayload × List Nat) :=
  match fno with
  | 1 => viaRd readStr (fun a s => { a with flag := s }) acc bytes
  | 2 => viaRd readStr (fun a s => { a with description := s }) acc bytes
  | 3 => viaRd readStr (fun a s => { a with evidence := s }) acc bytes
  | 4 => viaRd readStr (fun a s => { a with severity := s }) acc bytes
  | _ => viaSkip wt acc bytes


def recActionHandler (fno wt : Nat) (acc : RecommendedActionPayload) (bytes : List Nat) :
    Except String (RecommendedActionPayload × List Nat) :=
  match fno with
  | 1 => viaRd readStr (fun a s => { a with jurisdiction := s }) acc bytes
  | 2 => viaRd readStr (fun a s => { a with action := s }) acc bytes
  | 3 => viaRd readStr (fun a s => { a with legal_basis := s }) acc bytes
  | _ => viaSkip wt acc bytes


def topLiabilityHandler (fno wt : Nat) (acc : TopLiability) (bytes : List Nat) :
    Except String (TopLiability × List Nat) :=
  match fno with
  | 1 => viaRd readStr (fun a s => { a with name := s }) acc bytes
  | 2 => viaRd readStr (fun a s => { a with severity := s }) acc bytes
  | _ => viaSkip wt acc bytes


def preChecksHandler (fno wt : Nat) (acc : PreAnalysisChecksPayload) (bytes : List Nat) :
    Except String (PreAnalysisChecksPayload × List Nat) :=
  match fno with
  | 1 => viaRd readBool (fun a b => { a with extraction_protocol := b }) acc bytes
  | 2 => viaRd readBool (fun a b => { a with preservation_flags := b }) acc bytes
  | 3 => viaRd readBool (fun a b => { a with scope := b }) acc bytes
  | _ => viaSkip wt acc bytes


def actOutputHandler (fno wt : Nat) (acc : ActionableOutputPayload) (bytes : List Nat) :
    Except String (ActionableOutputPayload × List Nat) :=
  match fno with
  | 1 => viaRd (readMsg topLiabilityHandler topLiabilityDefault)
      (fun a m => { a with top_liabilities := a.top_liabilities ++ [m] }) acc bytes
  | 2 => viaRd readU32 (fun a v => { a with dishonesty_score := v }) acc bytes
  | 3 => viaRd (readMsg recActionHandler recActionDefault)
      (fun a m => { a with recommended_actions := a.recommended_actions ++ [m] }) acc bytes
  | 4 => viaRd readStr (fun a s => { a with summary := s }) acc bytes
  | _ => viaSkip wt acc bytes


def postDeclHandler (fno wt : Nat) (acc : PostAnalysisDeclarationPayload) (bytes : List Nat) :
    Except String (PostAnalysisDeclarationPayload × List Nat) :=
  match fno with
  | 1 => viaRd readBool (fun a b => { a with extraction_complete := b }) acc bytes
  | 2 => viaRd readBool (fun a b => { a with integrity_seals_verified := b }) acc bytes
  | 3 => viaRd readStr (fun a s => { a with logs := s }) acc bytes
  | 4 => viaRd readStr (fun a s => { a with «seal» := s }) acc bytes
  | _ => viaSkip wt acc bytes


/-- The generated decoder for the root `verumomnis.AnalysisResult` message:
known fields 1–12 read by declared type (singular fields overwrite — last
occurrence wins; repeated fields push; message fields replace the previous
value), any other field number is skipped by wire type. -/
def rootHandler (fno wt : Nat) (acc : ProtoPayload) (bytes : List Nat) :
    Except String (ProtoPayload × List Nat) :=
  match fno with
  | 1 => viaRd readU32 (fun a v => { a with protocol_version := v }) acc bytes
  | 2 => viaRd readStr (fun a s => { a with analysis_timestamp_utc := s }) acc bytes
  | 3 => viaRd readStr (fun a s => { a with document_hash := s }) acc bytes
  | 4 => viaRd readStr (fun a s => { a with file_name := s }) acc bytes
  | 5 => viaRd readStr (fun a s => { a with case_narrative := s }) acc bytes
  | 6 => viaRd (readMsg spotHandler spotlightDefault)
      (fun a m => { a with evidence_spotlight := a.evidence_spotlight ++ [m] }) acc bytes
  | 7 => viaRd (readMsg indexHandler indexDefault)
      (fun a m => { a with evidence_index := a.evidence_index ++ [m] }) acc bytes
  | 8 => viaRd (readMsg preChecksHandler preChecksDefault)
      (fun a m => { a with pre_analysis_checks := some m }) acc bytes
  | 9 => viaRd (readMsg legalHandler legalDefault)
      (fun a m => { a with critical_legal_subjects := a.critical_legal_subjects ++ [m] }) acc bytes
  | 10 => viaRd (readMsg dishonestyHandler dishonestyDefault)
      (fun a m => { a with dishonesty_detection_matrix := a.dishonesty_detection_matrix ++ [m] }) acc bytes
  | 11 => viaRd (readMsg actOutputHandler actOutputDefault)
      (fun a m => { a with actionable_output := some m }) acc bytes
  | 12 => viaRd (readMsg postDeclHandler postDeclDefault)
      (fun a m => { a with post_analysis_declaration := some m }) acc bytes
  | _ => viaSkip wt acc bytes


/-! ## `toObject` + `fromProtoPayload` (decode side conversion)

`ReportMessage.toObject` (without `defaults`/`arrays` options) keeps a field
iff it was set while decoding; a repeated field that received no element is
therefore *absent* from the object — the wire format cannot represent an
empty-but-present array.  `fromProtoPayload` then calls `.map` on
`evidence_spotlight`, `evidence_index`, `critical_legal_subjects`,
`dishonesty_detection_matrix` and `actionable_output.recommended_actions`,
and dereferences `pre_analysis_checks`, `actionable_output` and
`post_analysis_declaration`; each of these throws a `TypeError` when the
field is absent, modeled here as `.error` (absence of a repeated field ⇔ the
parsed list is empty).  `top_liabilities` and `key_points` are passed through
*without* `.map`, so an absent one surfaces as JavaScript `undefined`; the
model renders that corner as the empty list.  Scalar fields that were absent
surface as `undefined` in JS and as proto3 defaults here; no claim depends on
either corner. -/
def fromProtoPayload (payload : ProtoPayload) : Except String AnalysisResult :=
  if payload.evidence_spotlight.isEmpty then
    .error "TypeError: payload.evidence_spotlight is undefined"
  else if payload.evidence_index.isEmpty then
    .error "TypeError: payload.evidence_index is undefined"
  else
    match payload.pre_analysis_checks with
    | none => .error "TypeError: payload.pre_analysis_checks is undefined"
    | some pre =>
      if payload.critical_legal_subjects.isEmpty then
        .error "TypeError: payload.critical_legal_subjects is undefined"
      else if payload.dishonesty_detection_matrix.isEmpty then
        .error "TypeError: payload.dishonesty_detection_matrix is undefined"
      else
        match payload.actionable_output with
        | none => .error "TypeError: payload.actionable_output is undefined"
        | some actOut =>
          if actOut.recommended_actions.isEmpty then
            .error "TypeError: payload.actionable_output.recommended_actions is undefined"
          else
            match payload.post_analysis_declaration with
            | none => .error "TypeError: payload.post_analysis_declaration is undefined"
            | some postDecl =>
              .ok
                { documentHash := payload.document_hash
                  fileName := payload.file_name
                  caseNarrative := payload.case_narrative
                  evidenceSpotlight := payload.evidence_spotlight.map (fun item =>
                    { title := item.title
                      significance := item.significance
                      evidenceReference := item.evidence_reference
                      pageNumber := item.page_number })
                  evidenceIndex := payload.evidence_index.map (fun item =>
                    { id := item.id
                      description := item.description
                      pageNumber := item.page_number
                      documentReference := item.document_reference })
                  preAnalysisChecks := some
                    { extractionProtocol := pre.extraction_protocol
                      preservationFlags := pre.preservation_flags
                      scope := pre.scope }
                  criticalLegalSubjects := payload.critical_legal_subjects.map (fun item =>
                    { subject := item.subject
                      keyPoints := item.key_points
                      evidence := item.evidence
                      severity := item.severity })
                  dishonestyDetectionMatrix := payload.dishonesty_detection_matrix.map (fun item =>
                    { flag := item.flag
                      description := item.description
                      evidence := item.evidence
                      severity := item.severity })
                  actionableOutput := some
                    { topLiabilities := actOut.top_liabilities
                      dishonestyScore := actOut.dishonesty_score
                      recommendedActions := actOut.recommended_actions.map (fun item =>
                        { jurisdiction := item.jurisdiction
                          action := item.action
                          legalBasis := item.legal_basis })
                      summary := actOut.summary }
                  postAnalysisDeclaration := some
                    { extractionComplete := postDecl.extraction_complete
                      integritySealsVerified := postDecl.integrity_seals_verified
                      logs := postDecl.logs
                      «seal» := postDecl.seal } }


/-- `decodeReport` (identical in `src/components/FileUpload.tsx` lines
316–339 and `src/services/report.worker.js` lines 65–75): run the generated
decoder over the buffer, convert with `toObject`, then `fromProtoPayload`;
any exception rejects the promise, modeled as `.error`. -/
def decodeReport (buffer : List Nat) : Except String AnalysisResult :=
  match runParse rootHandler payloadDefault buffer with
  | .error e => .error e
  | .ok payload => fromProtoPayload payload


/-- `Reader.uint32`'s 32-bit truncation of an encoded `page_number`. -/
def normSpot (m : SpotlightPayload) : SpotlightPayload :=
  { m with page_number := m.page_number % 2 ^ 32 }


def normIndex (m : IndexPayload) : IndexPayload :=
  { m with page_number := m.page_number % 2 ^ 32 }


def normActOut (m : ActionableOutputPayload) : ActionableOutputPayload :=
  { m with dishonesty_score := m.dishonesty_score % 2 ^ 32 }


/-- What the decoder reconstructs from the encoder's buffer: the payload with
every `uint32` reduced mod 2^32. -/
def normPayload (p : ProtoPayload) : ProtoPayload :=
  { p with
    protocol_version := p.protocol_version % 2 ^ 32
    evidence_spotlight := p.evidence_spotlight.map normSpot
    evidence_index := p.evidence_index.map normIndex
    actionable_output := p.actionable_output.map normActOut }


/-- Effect of decoding an entire encoded root message on top of an
accumulator: scalars and message fields are overwritten (message fields only
when present on the wire), repeated fields are appended. -/
def mergeRoot (acc p : ProtoPayload) : ProtoPayload :=
  { protocol_version := p.protocol_version % 2 ^ 32
    analysis_timestamp_utc := p.analysis_timestamp_utc
    document_hash := p.document_hash
    file_name := p.file_name
    case_narrative := p.case_narrative
    evidence_spotlight := acc.evidence_spotlight ++ p.evidence_spotlight.map normSpot
    evidence_index := acc.evidence_index ++ p.evidence_index.map normIndex
    pre_analysis_checks :=
      match p.pre_analysis_checks with
      | none => acc.pre_analysis_checks
      | some m => some m
    critical_legal_subjects := acc.critical_legal_subjects ++ p.critical_legal_subjects
    dishonesty_detection_matrix := acc.dishonesty_detection_matrix ++ p.dishonesty_detection_matrix
    actionable_output :=
      match p.actionable_output with
      | none => acc.actionable_output
      | some m => some (normActOut m)
    post_analysis_declaration :=
      match p.post_analysis_declaration with
      | none => acc.post_analysis_declaration
      | some m => some m }


/-! ## Report invariants (§3 of the spec) and round-trip side conditions -/

/-- Severity values allowed on legal-subject and dishonesty findings. -/
def severityOk (s : String) : Bool :=
  s == "Low" || s == "Medium" || s == "High" || s == "Critical"


/-- Severity values allowed on top liabilities. -/
def liabilitySeverityOk (s : String) : Bool :=
  s == "High" || s == "Critical"


/-- The §3 invariants of a well-formed Report: severities in their sets,
`dishonestyScore ∈ [0, 100]`, and the three nested messages present. -/
def wellFormed (r : AnalysisResult) : Bool :=
  r.criticalLegalSubjects.all (fun s => severityOk s.severity) &&
  r.dishonestyDetectionMatrix.all (fun d => severityOk d.severity) &&
  r.preAnalysisChecks.isSome &&
  (match r.actionableOutput with
   | none => false
   | some a => a.topLiabilities.all (fun l => liabilitySeverityOk l.severity) &&
       decide (a.dishonestyScore ≤ 100)) &&
  r.postAnalysisDeclaration.isSome


/-- The side conditions under which the codec round-trips: every sequence
nonempty (an empty repeated field is omitted from the wire and the decode
conversion then fails or loses it) and page numbers within `uint32` range
(the writer truncates mod 2^32). -/
def roundTripSafe (r : AnalysisResult) : Bool :=
  !r.evidenceSpotlight.isEmpty && !r.evidenceIndex.isEmpty &&
  !r.criticalLegalSubjects.isEmpty && !r.dishonestyDetectionMatrix.isEmpty &&
  r.criticalLegalSubjects.all (fun s => !s.keyPoints.isEmpty) &&
  r.evidenceSpotlight.all (fun i => decide (i.pageNumber < 2 ^ 32)) &&
  r.evidenceIndex.all (fun i => decide (i.pageNumber < 2 ^ 32)) &&
  (match r.actionableOutput with
   | none => false
   | some a => !a.topLiabilities.isEmpty && !a.recommendedActions.isEmpty)


/-! ## Pagination engine (`generatePdfReport`, `src/services/report.worker.js`
lines 79–213; the same loop appears in `src/services/geminiService.ts`)

jsPDF is driven in millimetres (`unit: 'mm'`, A4 portrait: 210 wide).  The
model records the stream of drawing commands the code issues; the rendered
document is that stream plus the page count.  All lengths are in hundredths
of a millimetre so the source's `0.45` line-height factor becomes the exact
integer `45`; the source constants scale accordingly (margin 15 → 1500, page
overflow threshold 255 → 25500, block limit 280 → 28000).  Font faces and
colors (`setFont`, `setTextColor`, `setFillColor`, `setDrawColor`) carry no
layout state that the code ever reads back, so they are not recorded.
`splitTextToSize` and `autoTable` are jsPDF/plugin functions: they enter the
model as the `PdfLib` parameter (text wrapping and table layout engine),
fixed page geometry means a fixed `PdfLib`. -/

inductive PdfOp
  | text (page : Nat) (x y : Int) (lines : List String)
  | rect (page : Nat) (x y w h : Int)
  | line (page : Nat) (x1 y1 x2 y2 : Int)
  deriving DecidableEq


structure DocState where
  page : Nat
  y : Int
  ops : List PdfOp
  deriving DecidableEq


/-- The external layout engine: `doc.splitTextToSize text width` at a font
size, and `doc.autoTable` which draws a table and reports `finalY`. -/
structure PdfLib where
  splitText : String → Int → Nat → List String
  autoTable : List (List String) → List (List String) → Int → DocState → DocState × Int


def pageWidth : Int := 21000


def margin : Int := 1500


def contentWidth : Int := pageWidth - margin * 2


def addOp (st : DocState) (op : PdfOp) : DocState := { st with ops := st.ops ++ [op] }


/-- `if (y > 255) { doc.addPage(); y = 20; }` -/
def checkPageBreak (st : DocState) : DocState :=
  if st.y > 25500 then { st with page := st.page + 1, y := 2000 } else st


/-- `addHeader(title, onFirstPage)` from the worker. -/
def addHeader (title : String) (st : DocState) (onFirstPage : Bool) : DocState :=
  let st := if onFirstPage then st else { st with y := 2000 }
  let st := addOp st (.text st.page (pageWidth / 2) st.y
    ["DEEPSEEK VERUM OMNIS: INSTITUTIONAL REVIEW"])
  let st := { st with y := st.y + 700 }
  let st := addOp st (.text st.page (pageWidth / 2) st.y
    ["Forensic Analysis Report: " ++ title])
  let st := { st with y := st.y + 1000 }
  let st := addOp st (.line st.page margin st.y (pageWidth - margin) st.y)
  { st with y := st.y + 1000 }


/-- `addSectionTitle(title)` from the worker. -/
def addSectionTitle (title : String) (st : DocState) : DocState :=
  let st := checkPageBreak st
  let st := addOp st (.rect st.page margin (st.y - 500) contentWidth 1000)
  let st := addOp st (.text st.page (margin + 300) st.y [title.toUpper])
  { st with y := st.y + 1200 }


/-- `doc.splitTextToSize` applied to a string-or-array argument. -/
def splitAll (lib : PdfLib) : List String → Int → Nat → List String
  | [], _, _ => []
  | s :: ss, width, size => lib.splitText s width size ++ splitAll lib ss width size


/-- `addText(text, size, weight, indent)` from the worker; the weight only
selects a font face, which the layout never reads back. -/
def addText (lib : PdfLib) (txt : List String) (size : Nat) (indent : Int)
    (st : DocState) : DocState :=
  let st := checkPageBreak st
  let lines := splitAll lib txt (contentWidth - indent) size
  let st := addOp st (.text st.page (margin + indent) st.y lines)
  { st with y := st.y + (lines.length * size * 45 : Nat) }


/-- The measured height of a spotlight block's title text. -/
def spotTitleText (item : EvidenceSpotlightItem) : String :=
  "★ " ++ item.title ++ " (Page " ++ toString item.pageNumber ++ ")"


/-- The measurement phase of the evidence-spotlight loop body:
`titleHeight + significanceHeight + 12`. -/
def measureSpotBlock (lib : PdfLib) (item : EvidenceSpotlightItem) : Int :=
  ((lib.splitText (spotTitleText item) contentWidth 10).length * 10 * 45 : Nat) +
    ((lib.splitText item.significance (contentWidth - 500) 9).length * 9 * 45 : Nat) + 1200


/-- The drawing phase of the evidence-spotlight loop body: the background
rectangle at the current cursor (`drawStartY`), the cursor moved 6mm down
into the box, the two text runs, and finally the cursor parked below the
whole block (`drawStartY + blockHeight + 4`). -/
def spotDrawPhase (lib : PdfLib) (item : EvidenceSpotlightItem) (st : DocState) : DocState :=
  { addText lib [item.significance] 9 500
      (addText lib [spotTitleText item] 10 0
        { addOp st (.rect st.page margin st.y contentWidth (measureSpotBlock lib item)) with
          y := st.y + 600 }) with
    y := st.y + measureSpotBlock lib item + 400 }


/-- One iteration of `result.evidenceSpotlight.forEach(item => ...)` in the
worker's `generatePdfReport` (lines 143–163): leading `checkPageBreak`,
measure the block (`startY` is the cursor right after that check), start a
fresh page — with header and re-added section title — when
`startY + blockHeight > 280`, then run the drawing phase. -/
def spotItemStep (lib : PdfLib) (fileName : String) (st : DocState)
    (item : EvidenceSpotlightItem) : DocState :=
  let st := checkPageBreak st
  spotDrawPhase lib item
    (if st.y + measureSpotBlock lib item > 28000 then
      addSectionTitle "Evidence Spotlight"
        (addHeader fileName { st with page := st.page + 1, y := 2000 } false)
    else st)


/-- Page 1 of the report: header, executive summary, dishonesty score and
the two tables (recommended actions, top liabilities). -/
def renderExecPage (lib : PdfLib) (actOut : ActionableOutput) (fileName : String) : DocState :=
  let st : DocState := { page := 0, y := 0, ops := [] }
  let st := addHeader fileName st true
  let st := { st with y := 3500 }
  let st := addSectionTitle "Executive Summary & Actionable Output" st
  let st := addText lib [actOut.summary] 9 0 st
  let st := { st with y := st.y + 500 }
  let st := addText lib ["DISHONESTY SCORE: " ++ toString actOut.dishonestyScore ++ "%"] 10 0 st
  let st := { st with y := st.y + 800 }
  let p := lib.autoTable [["Jurisdiction", "Recommended Action", "Legal Basis"]]
    (actOut.recommendedActions.map (fun a => [a.jurisdiction, a.action, a.legalBasis])) st.y st
  let st := { p.1 with y := p.2 + 1000 }
  let p := lib.autoTable [["Identified Top Liabilities", "Severity"]]
    (actOut.topLiabilities.map (fun l => [l.name, l.severity])) st.y st
  { p.1 with y := p.2 + 1000 }


/-- `doc.addPage()` then the case narrative and the evidence-spotlight
loop. -/
def renderNarrativePage (lib : PdfLib) (result : AnalysisResult) (fileName : String)
    (st : DocState) : DocState :=
  let st := { st with page := st.page + 1 }
  let st := addHeader fileName st false
  let st := addSectionTitle "Case Narrative" st
  let st := addText lib [result.caseNarrative] 9 0 st
  let st := { st with y := st.y + 1000 }
  let st := checkPageBreak st
  let st := addSectionTitle "Evidence Spotlight" st
  result.evidenceSpotlight.foldl (spotItemStep lib fileName) st


/-- `doc.addPage()` then the two finding tables. -/
def renderFindingsPage (lib : PdfLib) (result : AnalysisResult) (fileName : String)
    (st : DocState) : DocState :=
  let st := { st with page := st.page + 1 }
  let st := addHeader fileName st false
  let st := addSectionTitle "Critical Legal Subjects" st
  let p := lib.autoTable [["Subject", "Key Points", "Evidence", "Severity"]]
    (result.criticalLegalSubjects.map (fun s =>
      [s.subject, String.intercalate "\n" s.keyPoints, s.evidence, s.severity])) st.y st
  let st := { p.1 with y := p.2 + 1000 }
  let st := checkPageBreak st
  let st := addSectionTitle "Dishonesty Detection Matrix" st
  let p := lib.autoTable [["Flag", "Description", "Evidence", "Severity"]]
    (result.dishonestyDetectionMatrix.map (fun d =>
      [d.flag, d.description, d.evidence, d.severity])) st.y st
  { p.1 with y := p.2 + 1000 }


/-- `doc.addPage()` then the evidence index and the declarations/seal
close-out. -/
def renderIndexAndSeals (lib : PdfLib) (result : AnalysisResult)
    (postDecl : PostAnalysisDeclaration) (fileName : String) (st : DocState) : DocState :=
  let st := { st with page := st.page + 1 }
  let st := addHeader fileName st false
  let st := addSectionTitle "Evidence Index" st
  let p := lib.autoTable [["ID", "Description", "Page"]]
    (result.evidenceIndex.map (fun e => [e.id, e.description, toString e.pageNumber])) st.y st
  let st := { p.1 with y := p.2 }
  let st := { st with y := 25000 }
  let st := checkPageBreak st
  let st := addSectionTitle "Declarations & Seals" st
  let st := addText lib ["Pre-Analysis:"] 9 0 st
  let st := addText lib
    ["[✓] Initiating extraction under Forensic-Chain Protocol.",
     "[✓] Preservation flags engaged: WATERMARKS, SEALS, BEHAVIORAL MATRICES.",
     "[✓] Scope: Entire file content and metadata."] 8 500 st
  let st := { st with y := st.y + 400 }
  let st := addText lib ["Post-Analysis:"] 9 0 st
  let st := addText lib
    ["[✓] Extraction complete. Integrity seals verified.",
     "[✓] Contradictions/redaction breaks logged in: " ++ postDecl.logs,
     "[✓] Ready for redeployment: New case initialization unlocked."] 8 500 st
  let st := { st with y := st.y + 800 }
  let st := addOp st (.line st.page margin st.y (pageWidth - margin) st.y)
  let st := { st with y := st.y + 500 }
  let st := addOp st (.text st.page margin st.y [postDecl.seal])
  let st := { st with y := st.y + 500 }
  addOp st (.text st.page margin st.y
    ["Document SHA-512 Hash: " ++ result.documentHash])


/-- `generatePdfReport(result, fileName)` from the worker, page phase by
page phase in source order.  jsPDF's `doc.addPage()` switches to a fresh
page without touching the code's own `y` variable.  The two nested-message
dereferences (`result.actionableOutput.…`, `result.postAnalysisDeclaration.…`)
throw a `TypeError` when the message is absent; the model surfaces that as
`.error` up front (the thrown-and-caught partial output is discarded either
way).  The `env` parameter is the ambient wall clock available to the code;
the renderer never reads it. -/
def generatePdfReport (lib : PdfLib) (result : AnalysisResult) (fileName : String)
    (_env : Env) : Except String DocState :=
  match result.actionableOutput, result.postAnalysisDeclaration with
  | some actOut, some postDecl =>
    .ok (renderIndexAndSeals lib result postDecl fileName
      (renderFindingsPage lib result fileName
        (renderNarrativePage lib result fileName
          (renderExecPage lib actOut fileName))))
  | _, _ => .error "TypeError: cannot read properties of undefined"


/-! ## Task orchestrator (`src/services/report.worker.js` lines 215–257) -/

inductive WorkerEvent
  | progress (message : String)
  | success (blob : DocState) (fileName : String) (result : AnalysisResult)
  | pdfGenerated (blob : DocState)
  | error (message : String)
  deriving DecidableEq


/-- The two structured commands the worker accepts (`File` instances and
`{ type: 'generatePdf', result, fileName }` messages), plus anything else. -/
inductive WorkerInput
  | binFile (bytes : List Nat)
  | generatePdfMsg (result : AnalysisResult) (fileName : String)
  | other


/-- `e.message || fallback`. -/
def messageOr (e fallback : String) : String := if e = "" then fallback else e


/-- `handleBinFile` (worker lines 215–233): the whole body sits inside one
`try`, whose `catch` posts a single `error` event; on success the last post
is the single `success` event. -/
def handleBinFile (lib : PdfLib) (env : Env) (file : List Nat) : List WorkerEvent :=
  match decodeReport file with
  | .error e =>
    [.progress "Reading file into memory...",
     .progress "Decoding binary report...",
     .error (messageOr e "An unknown error occurred.")]
  | .ok decodedResult =>
    match generatePdfReport lib decodedResult decodedResult.fileName env with
    | .error e =>
      [.progress "Reading file into memory...",
       .progress "Decoding binary report...",
       .progress "Constructing PDF from report data...",
       .error (messageOr e "An unknown error occurred.")]
    | .ok pdfBlob =>
      [.progress "Reading file into memory...",
       .progress "Decoding binary report...",
       .progress "Constructing PDF from report data...",
       .success pdfBlob decodedResult.fileName decodedResult]


/-- `handlePdfRequest` (worker lines 235–243). -/
def handlePdfRequest (lib : PdfLib) (env : Env) (result : AnalysisResult)
    (fileName : String) : List WorkerEvent :=
  match generatePdfReport lib result fileName env with
  | .error e => [.error (messageOr e "Failed to generate PDF.")]
  | .ok pdfBlob => [.pdfGenerated pdfBlob]


/-- `self.onmessage` (worker lines 247–257): dispatch one command to its
handler, unknown payloads get a single error event. -/
def onmessage (lib : PdfLib) (env : Env) : WorkerInput → List WorkerEvent
  | .binFile f => handleBinFile lib env f
  | .generatePdfMsg r fn => handlePdfRequest lib env r fn
  | .other => [.error "Unknown message type received by worker."]


/-- Terminal events end a command's lifecycle: `success`, `pdfGenerated`
(the render-only command's success) and `error` (failure). -/
def isTerminal : WorkerEvent → Bool
  | .progress _ => false
  | _ => true


/-- A failure event carrying a nonempty message. -/
def isNonemptyFailure : WorkerEvent → Bool
  | .error m => !(m == "")
  | _ => false


/-- A success-like event (either success constructor). -/
def isSuccessEvent : WorkerEvent → Bool
  | .success _ _ _ => true
  | .pdfGenerated _ => true
  | _ => false


/-! ## Call-boundary view for the no-mutation contract

JavaScript passes the Report object by reference, so a callee could mutate
the caller's object.  The pair below is the call boundary: first component
the return value, second the caller's Report after the call.  The bodies of
`toProtoPayload` and `generatePdfReport` contain only reads of `result`
(protobuf.js `create` copies the payload into a fresh message; every map
builds new objects); the one place the source family mutates a report —
the severity-coercion loops in `analyzeDocument` — is the AI service, not
the codec or renderer.  An assignment through `result` in the modeled code
would surface here as a changed second component. -/

def encodeReportCall (result : AnalysisResult) (env : Env) :
    Except String (List Nat) × AnalysisResult :=
  (encodeReport result env, result)


def generatePdfReportCall (lib : PdfLib) (result : AnalysisResult) (fileName : String)
    (env : Env) : Except String DocState × AnalysisResult :=
  (generatePdfReport lib result fileName env, result)


/-! ## Page bookkeeping for the atomic-placement claims -/

def opPage : PdfOp → Nat
  | .text p _ _ _ => p
  | .rect p _ _ _ _ => p
  | .line p _ _ _ _ => p


/-- All drawing commands of a list sit on one page. -/
def allSamePage : List PdfOp → Bool
  | [] => true
  | op :: rest => rest.all (fun o => opPage o == opPage op)


/-- The page the spotlight block is drawn on: the current page, or the next
one when the measured block overflows the 280mm limit. -/
def spotDrawPage (lib : PdfLib) (st : DocState) (item : EvidenceSpotlightItem) : Nat :=
  let st₁ := checkPageBreak st
  if st₁.y + measureSpotBlock lib item > 28000 then st₁.page + 1 else st₁.page


/-- The cursor position the spotlight block is drawn at: 59mm on a fresh
page (below the re-drawn header and section title) after an overflow break,
otherwise the current cursor. -/
def spotDrawStart (lib : PdfLib) (st : DocState) (item : EvidenceSpotlightItem) : Int :=
  let st₁ := checkPageBreak st
  if st₁.y + measureSpotBlock lib item > 28000 then 5900 else st₁.y


/-- Every drawing command emitted while processing one spotlight item
(including the re-drawn header/section title after an overflow break). -/
def spotItemOps (lib : PdfLib) (fileName : String) (st : DocState)
    (item : EvidenceSpotlightItem) : List PdfOp :=
  (spotItemStep lib fileName st item).ops.drop st.ops.length


/-! ## Concrete fixtures -/

def env0 : Env := ⟨"2025-01-01T00:00:00.000Z"⟩


/-- A complete well-formed report with every sequence nonempty; its one
spotlight item is the spec's scenario (`title="Contradiction A"`,
`pageNumber=3`). -/
def rGood : AnalysisResult :=
  { documentHash := "sha512-ab"
    fileName := "f.pdf"
    caseNarrative := "n"
    evidenceSpotlight := [⟨"Contradiction A", "s", "E-01", 3⟩]
    evidenceIndex := [⟨"E-01", "d", 1, "doc"⟩]
    preAnalysisChecks := some ⟨true, true, true⟩
    criticalLegalSubjects := [⟨"subj", ["k1"], "ev", "Critical"⟩]
    dishonestyDetectionMatrix := [⟨"flag", "d", "ev", "Low"⟩]
    actionableOutput := some ⟨[⟨"L1", "High"⟩], 50, [⟨"ZA", "act", "basis"⟩], "sum"⟩
    postAnalysisDeclaration := some ⟨true, true, "/d/a.log", "VERUM OMNIS | SEAL"⟩ }


/-- Well-formed (per §3: empty sequences are valid) but with an empty
`evidenceSpotlight`. -/
def rEmptySpot : AnalysisResult :=
  { rGood with evidenceSpotlight := [] }


/-- A report whose only top liability carries severity `"Low"`. -/
def rLowLiab : AnalysisResult :=
  { rGood with actionableOutput := some ⟨[⟨"Overdraft", "Low"⟩], 50, [⟨"ZA", "act", "basis"⟩], "sum"⟩ }


/-- A report missing its `preAnalysisChecks` nested message. -/
def rIncomplete : AnalysisResult :=
  { rGood with preAnalysisChecks := none }


/-- A wrap-every-string-to-one-line layout engine and a table engine that
draws nothing and reports its own `startY` back. -/
def lib0 : PdfLib :=
  { splitText := fun s _ _ => [s]
    autoTable := fun _ _ y st => (st, y) }


/-- A layout engine under which the spotlight block of any item measures
2 title lines and 6 significance lines: 2·10·0.45 + 6·9·0.45 + 12 =
45.3mm — the spec's "45mm block". -/
def lib45 : PdfLib :=
  { splitText := fun s _ size => if size == 10 then [s, s] else [s, s, s, s, s, s]
    autoTable := fun _ _ y st => (st, y) }


/-- Cursor at 250mm on page 0 with nothing drawn yet. -/
def st250 : DocState := ⟨0, 25000, []⟩


/-- The state right after the overflow branch's `addPage`/`addHeader`/
`addSectionTitle` sequence: page advanced, cursor at 59mm, five header and
section-title commands emitted on the fresh page. -/
def spotFreshState (fn : String) (c : DocState) : DocState :=
  { page := c.page + 1
    y := 5900
    ops := c.ops ++
      [.text (c.page + 1) (pageWidth / 2) 2000 ["DEEPSEEK VERUM OMNIS: INSTITUTIONAL REVIEW"],
       .text (c.page + 1) (pageWidth / 2) 2700 ["Forensic Analysis Report: " ++ fn],
       .line (c.page + 1) margin 3700 (pageWidth - margin) 3700,
       .rect (c.page + 1) margin 4200 contentWidth 1000,
       .text (c.page + 1) (margin + 300) 4700 ["Evidence Spotlight".toUpper]] }


/-- A spotlight item used by the pagination claims. -/
def spotItem1 : EvidenceSpotlightItem := ⟨"T", "S", "R", 3⟩


theorem encodeVarintGo_spec (f : Nat) : ∀ (n : Nat), n ≤ f → ∀ (rest : List Nat),
    decodeVarint (encodeVarintGo f n ++ rest) = some (n, rest) := by
  induction f with
  | zero =>
    intro n hn rest
    interval_cases n
    simp [encodeVarintGo, decodeVarint]
  | succ f ih =>
    intro n hn rest
    by_cases h : n < 128
    · simp [encodeVarintGo, h, decodeVarint]
    · have hdiv : n / 128 ≤ f := by
        have : n / 128 < n := Nat.div_lt_self (by omega) (by omega)
        omega
      have hmod : n % 128 < 128 := Nat.mod_lt _ (by omega)
      simp only [encodeVarintGo, if_neg h, List.cons_append, decodeVarint]
      rw [if_neg (by omega), ih _ hdiv rest]
      exact congrArg some (Prod.ext (by omega) rfl)


theorem decodeVarint_encodeVarint (n : Nat) (rest : List Nat) :
    decodeVarint (encodeVarint n ++ rest) = some (n, rest) :=
  encodeVarintGo_spec n n le_rfl rest


theorem decodeVarint_length : ∀ {l : List Nat} {n : Nat} {rest : List Nat},
    decodeVarint l = some (n, rest) → rest.length < l.length := by
  intro l
  induction l with
  | nil => intro n rest h; simp [decodeVarint] at h
  | cons b bs ih =>
    intro n rest h
    simp only [decodeVarint] at h
    by_cases hb : b < 128
    · rw [if_pos hb] at h
      cases h
      simp
    · rw [if_neg hb] at h
      cases hbs : decodeVarint bs with
      | none => rw [hbs] at h; cases h
      | some p =>
        rw [hbs] at h
        cases h
        have := ih hbs
        simp only [List.length_cons]
        omega


theorem encodeVarintGo_ne_nil (f n : Nat) : encodeVarintGo f n ≠ [] := by
  cases f with
  | zero => simp [encodeVarintGo]
  | succ f =>
    by_cases h : n < 128 <;> simp [encodeVarintGo, h]


theorem encodeVarint_length_pos (n : Nat) : 0 < (encodeVarint n).length :=
  List.length_pos.mpr (encodeVarintGo_ne_nil n n)


theorem splitAtExact_append (l₁ l₂ : List Nat) :
    splitAtExact l₁.length (l₁ ++ l₂) = some (l₁, l₂) := by
  induction l₁ with
  | nil => simp [splitAtExact]
  | cons b bs ih => simp [splitAtExact, ih]


theorem splitAtExact_length : ∀ {n : Nat} {l xs rest : List Nat},
    splitAtExact n l = some (xs, rest) → rest.length ≤ l.length := by
  intro n
  induction n with
  | zero =>
    intro l xs rest h
    simp only [splitAtExact] at h
    cases h
    simp
  | succ n ih =>
    intro l xs rest h
    cases l with
    | nil => simp [splitAtExact] at h
    | cons b bs =>
      simp only [splitAtExact] at h
      cases hbs : splitAtExact n bs with
      | none => rw [hbs] at h; cases h
      | some p =>
        rw [hbs] at h
        cases p with
        | mk xs' rest' =>
          cases h
          have := ih hbs
          simp only [List.length_cons]
          omega


theorem charsOfBytes_chBytesList : ∀ (f : Nat) (cs : List Char),
    (chBytesList cs).length ≤ f → charsOfBytes f (chBytesList cs) = some cs := by
  intro f
  induction f with
  | zero =>
    intro cs h
    cases cs with
    | nil => simp [chBytesList, charsOfBytes]
    | cons c cs =>
      exfalso
      have h1 := encodeVarint_length_pos c.toNat
      simp only [chBytesList, charBytes, List.length_append] at h
      omega
  | succ f ih =>
    intro cs h
    cases cs with
    | nil => simp [chBytesList, charsOfBytes]
    | cons c cs =>
      have h1 := encodeVarint_length_pos c.toNat
      have hstep : chBytesList (c :: cs) = encodeVarint c.toNat ++ chBytesList cs := rfl
      obtain ⟨b, bs, hb⟩ : ∃ b bs, encodeVarint c.toNat ++ chBytesList cs = b :: bs := by
        cases henc : encodeVarint c.toNat with
        | nil => rw [henc] at h1; simp at h1
        | cons x xs => exact ⟨x, xs ++ chBytesList cs, by simp [henc]⟩
      rw [hstep, hb]
      simp only [charsOfBytes]
      rw [← hb, decodeVarint_encodeVarint c.toNat (chBytesList cs)]
      have hv : c.toNat.isValidChar := c.valid
      have hlen : (chBytesList cs).length ≤ f := by
        rw [hstep] at h
        simp only [List.length_append] at h
        omega
      simp only [hv, if_true, ih cs hlen, Char.ofNat_toNat]


theorem bytesToStr_strBytes (s : String) : bytesToStr (strBytes s) = some s := by
  simp only [bytesToStr, strBytes, charsOfBytes_chBytesList _ s.data le_rfl]


theorem readLenDelim_length {bytes payload rest : List Nat}
    (h : readLenDelim bytes = .ok (payload, rest)) : rest.length ≤ bytes.length := by
  simp only [readLenDelim] at h
  cases hv : decodeVarint bytes with
  | none => rw [hv] at h; cases h
  | some p =>
    obtain ⟨len, rest1⟩ := p
    rw [hv] at h
    simp only [] at h
    cases hs : splitAtExact len rest1 with
    | none => rw [hs] at h; cases h
    | some q =>
      obtain ⟨xs, rest2⟩ := q
      rw [hs] at h
      simp only [] at h
      cases h
      have h1 := decodeVarint_length hv
      have h2 := splitAtExact_length hs
      omega


theorem readStr_length {bytes : List Nat} {s : String} {rest : List Nat}
    (h : readStr bytes = .ok (s, rest)) : rest.length ≤ bytes.length := by
  simp only [readStr] at h
  cases hl : readLenDelim bytes with
  | error e => rw [hl] at h; cases h
  | ok p =>
    obtain ⟨payload, rest1⟩ := p
    rw [hl] at h
    simp only [] at h
    cases hb : bytesToStr payload with
    | none => rw [hb] at h; cases h
    | some s' =>
      rw [hb] at h
      simp only [] at h
      cases h
      exact readLenDelim_length hl


theorem readU32_length {bytes : List Nat} {n : Nat} {rest : List Nat}
    (h : readU32 bytes = .ok (n, rest)) : rest.length ≤ bytes.length := by
  simp only [readU32] at h
  cases hv : decodeVarint bytes with
  | none => rw [hv] at h; cases h
  | some p =>
    obtain ⟨v, rest1⟩ := p
    rw [hv] at h
    simp only [] at h
    cases h
    exact le_of_lt (decodeVarint_length hv)


theorem readBool_length {bytes : List Nat} {b : Bool} {rest : List Nat}
    (h : readBool bytes = .ok (b, rest)) : rest.length ≤ bytes.length := by
  simp only [readBool] at h
  cases hv : decodeVarint bytes with
  | none => rw [hv] at h; cases h
  | some p =>
    obtain ⟨v, rest1⟩ := p
    rw [hv] at h
    simp only [] at h
    cases h
    exact le_of_lt (decodeVarint_length hv)


theorem skipField_length {wt : Nat} {bytes rest : List Nat}
    (h : skipField wt bytes = .ok rest) : rest.length ≤ bytes.length := by
  unfold skipField at h
  split at h
  · cases hv : decodeVarint bytes with
    | none => rw [hv] at h; cases h
    | some p =>
      obtain ⟨v, rest1⟩ := p
      rw [hv] at h
      simp only [] at h
      cases h
      exact le_of_lt (decodeVarint_length hv)
  · cases hs : splitAtExact 8 bytes with
    | none => rw [hs] at h; cases h
    | some p =>
      obtain ⟨xs, rest1⟩ := p
      rw [hs] at h
      simp only [] at h
      cases h
      exact splitAtExact_length hs
  · cases hl : readLenDelim bytes with
    | error e => rw [hl] at h; cases h
    | ok p =>
      obtain ⟨xs, rest1⟩ := p
      rw [hl] at h
      simp only [] at h
      cases h
      exact readLenDelim_length hl
  · cases hs : splitAtExact 4 bytes with
    | none => rw [hs] at h; cases h
    | some p =>
      obtain ⟨xs, rest1⟩ := p
      rw [hs] at h
      simp only [] at h
      cases h
      exact splitAtExact_length hs
  · cases h


theorem parseMsg_fuel {α : Type} {handler : Nat → Nat → α → List Nat → Except String (α × List Nat)}
    (hlen : HandlerLen handler) :
    ∀ (k f f' : Nat) (acc : α) (bytes : List Nat), bytes.length ≤ k →
      bytes.length ≤ f → bytes.length ≤ f' →
      parseMsg handler f acc bytes = parseMsg handler f' acc bytes := by
  intro k
  induction k with
  | zero =>
    intro f f' acc bytes hk _ _
    have : bytes = [] := List.length_eq_zero.mp (Nat.le_zero.mp hk)
    subst this
    cases f <;> cases f' <;> rfl
  | succ k ih =>
    intro f f' acc bytes hk hf hf'
    cases bytes with
    | nil => cases f <;> cases f' <;> rfl
    | cons b bs =>
      have hb : 0 < (b :: bs).length := by simp
      cases f with
      | zero => omega
      | succ f =>
        cases f' with
        | zero => omega
        | succ f' =>
          simp only [parseMsg]
          cases hv : decodeVarint (b :: bs) with
          | none => rfl
          | some p =>
            obtain ⟨tag, pre⟩ := p
            simp only []
            cases hh : handler (tag / 8) (tag % 8) acc pre with
            | error e => rfl
            | ok q =>
              obtain ⟨acc₂, rest₂⟩ := q
              simp only []
              have h1 := decodeVarint_length hv
              have h2 := hlen _ _ _ _ _ _ hh
              simp only [List.length_cons] at h1 hk hf hf'
              exact ih f f' acc₂ rest₂ (by omega) (by omega) (by omega)


/-- One parsing step: if the tag at the head decodes and the handler consumes
the field, `runParse` proceeds on the remainder. -/
theorem runParse_step {α : Type} {handler : Nat → Nat → α → List Nat → Except String (α × List Nat)}
    (hlen : HandlerLen handler) {acc : α} {bytes : List Nat} {tag : Nat} {pre : List Nat}
    {acc₂ : α} {rest₂ : List Nat}
    (htag : decodeVarint bytes = some (tag, pre))
    (hh : handler (tag / 8) (tag % 8) acc pre = .ok (acc₂, rest₂)) :
    runParse handler acc bytes = runParse handler acc₂ rest₂ := by
  cases bytes with
  | nil => simp [decodeVarint] at htag
  | cons b bs =>
    have h1 := decodeVarint_length htag
    have h2 := hlen _ _ _ _ _ _ hh
    simp only [runParse, List.length_cons, parseMsg, htag, hh]
    simp only [List.length_cons] at h1
    exact parseMsg_fuel hlen rest₂.length bs.length rest₂.length acc₂ rest₂ le_rfl
      (by omega) le_rfl


theorem viaRd_length {α β : Type} {rd : List Nat → Except String (β × List Nat)}
    (hrd : ∀ (bytes : List Nat) (v : β) (rest : List Nat),
      rd bytes = .ok (v, rest) → rest.length ≤ bytes.length)
    {upd : α → β → α} {acc : α} {bytes : List Nat} {acc₂ : α} {rest₂ : List Nat}
    (h : viaRd rd upd acc bytes = .ok (acc₂, rest₂)) : rest₂.length ≤ bytes.length := by
  simp only [viaRd] at h
  cases hr : rd bytes with
  | error e => rw [hr] at h; cases h
  | ok p =>
    obtain ⟨v, rest⟩ := p
    rw [hr] at h
    simp only [] at h
    cases h
    exact hrd _ _ _ hr


theorem viaSkip_length {α : Type} {wt : Nat} {acc : α} {bytes : List Nat} {acc₂ : α}
    {rest₂ : List Nat} (h : viaSkip wt acc bytes = .ok (acc₂, rest₂)) :
    rest₂.length ≤ bytes.length := by
  simp only [viaSkip] at h
  cases hs : skipField wt bytes with
  | error e => rw [hs] at h; cases h
  | ok rest =>
    rw [hs] at h
    simp only [] at h
    cases h
    exact skipField_length hs


theorem readMsg_length {α : Type}
    {handler : Nat → Nat → α → List Nat → Except String (α × List Nat)} {init : α}
    {bytes : List Nat} {item : α} {rest₂ : List Nat}
    (h : readMsg handler init bytes = .ok (item, rest₂)) : rest₂.length ≤ bytes.length := by
  simp only [readMsg] at h
  cases hl : readLenDelim bytes with
  | error e => rw [hl] at h; cases h
  | ok p =>
    obtain ⟨payload, rest⟩ := p
    rw [hl] at h
    simp only [] at h
    cases hp : runParse handler init payload with
    | error e => rw [hp] at h; cases h
    | ok it =>
      rw [hp] at h
      simp only [] at h
      cases h
      exact readLenDelim_length hl


theorem spotHandler_len : HandlerLen spotHandler := by
  intro fno wt acc rest acc₂ rest₂ h
  unfold spotHandler at h
  split at h
  · exact viaRd_length (fun b v r hh => readStr_length hh) h
  · exact viaRd_length (fun b v r hh => readStr_length hh) h
  · exact viaRd_length (fun b v r hh => readStr_length hh) h
  · exact viaRd_length (fun b v r hh => readU32_length hh) h
  · exact viaSkip_length h


theorem indexHandler_len : HandlerLen indexHandler := by
  intro fno wt acc rest acc₂ rest₂ h
  unfold indexHandler at h
  split at h
  · exact viaRd_length (fun b v r hh => readStr_length hh) h
  · exact viaRd_length (fun b v r hh => readStr_length hh) h
  · exact viaRd_length (fun b v r hh => readU32_length hh) h
  · exact viaRd_length (fun b v r hh => readStr_length hh) h
  · exact viaSkip_length h


theorem legalHandler_len : HandlerLen legalHandler := by
  intro fno wt acc rest acc₂ rest₂ h
  unfold legalHandler at h
  split at h
  · exact viaRd_length (fun b v r hh => readStr_length hh) h
  · exact viaRd_length (fun b v r hh => readStr_length hh) h
  · exact viaRd_length (fun b v r hh => readStr_length hh) h
  · exact viaRd_length (fun b v r hh => readStr_length hh) h
  · exact viaSkip_length h


theorem dishonestyHandler_len : HandlerLen dishonestyHandler := by
  intro fno wt acc rest acc₂ rest₂ h
  unfold dishonestyHandler at h
  split at h
  · exact viaRd_length (fun b v r hh => readStr_length hh) h
  · exact viaRd_length (fun b v r hh => readStr_length hh) h
  · exact viaRd_length (fun b v r hh => readStr_length hh) h
  · exact viaRd_length (fun b v r hh => readStr_length hh) h
  · exact viaSkip_length h


theorem recActionHandler_len : HandlerLen recActionHandler := by
  intro fno wt acc rest acc₂ rest₂ h
  unfold recActionHandler at h
  split at h
  · exact viaRd_length (fun b v r hh => readStr_length hh) h
  · exact viaRd_length (fun b v r hh => readStr_length hh) h
  · exact viaRd_length (fun b v r hh => readStr_length hh) h
  · exact viaSkip_length h


theorem topLiabilityHandler_len : HandlerLen topLiabilityHandler := by
  intro fno wt acc rest acc₂ rest₂ h
  unfold topLiabilityHandler at h
  split at h
  · exact viaRd_length (fun b v r hh => readStr_length hh) h
  · exact viaRd_length (fun b v r hh => readStr_length hh) h
  · exact viaSkip_length h


theorem preChecksHandler_len : HandlerLen preChecksHandler := by
  intro fno wt acc rest acc₂ rest₂ h
  unfold preChecksHandler at h
  split at h
  · exact viaRd_length (fun b v r hh => readBool_length hh) h
  · exact viaRd_length (fun b v r hh => readBool_length hh) h
  · exact viaRd_length (fun b v r hh => readBool_length hh) h
  · exact viaSkip_length h


theorem actOutputHandler_len : HandlerLen actOutputHandler := by
  intro fno wt acc rest acc₂ rest₂ h
  unfold actOutputHandler at h
  split at h
  · exact viaRd_length (fun b v r hh => readMsg_length hh) h
  · exact viaRd_length (fun b v r hh => readU32_length hh) h
  · exact viaRd_length (fun b v r hh => readMsg_length hh) h
  · exact viaRd_length (fun b v r hh => readStr_length hh) h
  · exact viaSkip_length h


theorem postDeclHandler_len : HandlerLen postDeclHandler := by
  intro fno wt acc rest acc₂ rest₂ h
  unfold postDeclHandler at h
  split at h
  · exact viaRd_length (fun b v r hh => readBool_length hh) h
  · exact viaRd_length (fun b v r hh => readBool_length hh) h
  · exact viaRd_length (fun b v r hh => readStr_length hh) h
  · exact viaRd_length (fun b v r hh => readStr_length hh) h
  · exact viaSkip_length h


theorem rootHandler_len : HandlerLen rootHandler := by
  intro fno wt acc rest acc₂ rest₂ h
  unfold rootHandler at h
  split at h
  · exact viaRd_length (fun b v r hh => readU32_length hh) h
  · exact viaRd_length (fun b v r hh => readStr_length hh) h
  · exact viaRd_length (fun b v r hh => readStr_length hh) h
  · exact viaRd_length (fun b v r hh => readStr_length hh) h
  · exact viaRd_length (fun b v r hh => readStr_length hh) h
  · exact viaRd_length (fun b v r hh => readMsg_length hh) h
  · exact viaRd_length (fun b v r hh => readMsg_length hh) h
  · exact viaRd_length (fun b v r hh => readMsg_length hh) h
  · exact viaRd_length (fun b v r hh => readMsg_length hh) h
  · exact viaRd_length (fun b v r hh => readMsg_length hh) h
  · exact viaRd_length (fun b v r hh => readMsg_length hh) h
  · exact viaRd_length (fun b v r hh => readMsg_length hh) h
  · exact viaSkip_length h


/-! ## Parsing back what the encoder wrote -/

theorem runParse_nil {α : Type} (handler : Nat → Nat → α → List Nat → Except String (α × List Nat))
    (acc : α) : runParse handler acc [] = .ok acc := rfl


theorem viaRd_enc {α β : Type} (rd : List Nat → Except String (β × List Nat)) (upd : α → β → α)
    (acc : α) {bytes : List Nat} {v : β} {rest : List Nat} (hrd : rd bytes = .ok (v, rest)) :
    viaRd rd upd acc bytes = .ok (upd acc v, rest) := by
  simp only [viaRd, hrd]


theorem readStr_enc (s : String) (rest : List Nat) :
    readStr (encodeVarint (strBytes s).length ++ (strBytes s ++ rest)) = .ok (s, rest) := by
  simp only [readStr, readLenDelim, decodeVarint_encodeVarint, splitAtExact_append,
    bytesToStr_strBytes]


theorem readU32_enc (v : Nat) (rest : List Nat) :
    readU32 (encodeVarint (v % 2 ^ 32) ++ rest) = .ok (v % 2 ^ 32, rest) := by
  have h : v % 2 ^ 32 % 2 ^ 32 = v % 2 ^ 32 := Nat.mod_mod_of_dvd v dvd_rfl
  simp only [readU32, decodeVarint_encodeVarint, h]


theorem readBool_enc (b : Bool) (rest : List Nat) :
    readBool (encodeVarint (if b then 1 else 0) ++ rest) = .ok (b, rest) := by
  cases b <;> simp [readBool, decodeVarint_encodeVarint]


theorem readMsg_enc {α : Type}
    {handler : Nat → Nat → α → List Nat → Except String (α × List Nat)} {init : α}
    {body : List Nat} {m : α} (rest : List Nat) (hbody : runParse handler init body = .ok m) :
    readMsg handler init (encodeVarint body.length ++ (body ++ rest)) = .ok (m, rest) := by
  simp only [readMsg, readLenDelim, decodeVarint_encodeVarint, splitAtExact_append, hbody]


/-- Parsing one tagged field: the tag varint followed by a field body the
handler accepts. -/
theorem runParse_field {α : Type}
    {handler : Nat → Nat → α → List Nat → Except String (α × List Nat)}
    (hlen : HandlerLen handler) {f w : Nat} (hwt : w < 8) {tail rest : List Nat}
    {acc acc₂ : α} (hh : handler f w acc tail = .ok (acc₂, rest)) :
    runParse handler acc (encodeVarint (f * 8 + w) ++ tail) = runParse handler acc₂ rest := by
  have hdiv : (f * 8 + w) / 8 = f := by omega
  have hmod : (f * 8 + w) % 8 = w := by omega
  exact runParse_step hlen (decodeVarint_encodeVarint _ _) (by rw [hdiv, hmod]; exact hh)


theorem runParse_spot_title (acc : SpotlightPayload) (s : String) (rest : List Nat) :
    runParse spotHandler acc (encStrField 1 s ++ rest) =
      runParse spotHandler { acc with title := s } rest := by
  have hb : encStrField 1 s ++ rest =
      encodeVarint 10 ++ (encodeVarint (strBytes s).length ++ (strBytes s ++ rest)) := by
    simp [encStrField, encLenField]
  rw [hb]
  refine runParse_field (f := 1) (w := 2) spotHandler_len (by omega) ?_
  simp only [spotHandler]
  exact viaRd_enc readStr (fun a v => { a with title := v }) acc (readStr_enc s rest)


theorem runParse_spot_significance (acc : SpotlightPayload) (s : String) (rest : List Nat) :
    runParse spotHandler acc (encStrField 2 s ++ rest) =
      runParse spotHandler { acc with significance := s } rest := by
  have hb : encStrField 2 s ++ rest =
      encodeVarint 18 ++ (encodeVarint (strBytes s).length ++ (strBytes s ++ rest)) := by
    simp [encStrField, encLenField]
  rw [hb]
  refine runParse_field (f := 2) (w := 2) spotHandler_len (by omega) ?_
  simp only [spotHandler]
  exact viaRd_enc readStr (fun a v => { a with significance := v }) acc (readStr_enc s rest)


theorem runParse_spot_reference (acc : SpotlightPayload) (s : String) (rest : List Nat) :
    runParse spotHandler acc (encStrField 3 s ++ rest) =
      runParse spotHandler { acc with evidence_reference := s } rest := by
  have hb : encStrField 3 s ++ rest =
      encodeVarint 26 ++ (encodeVarint (strBytes s).length ++ (strBytes s ++ rest)) := by
    simp [encStrField, encLenField]
  rw [hb]
  refine runParse_field (f := 3) (w := 2) spotHandler_len (by omega) ?_
  simp only [spotHandler]
  exact viaRd_enc readStr (fun a v => { a with evidence_reference := v }) acc (readStr_enc s rest)


theorem runParse_spot_page (acc : SpotlightPayload) (v : Nat) (rest : List Nat) :
    runParse spotHandler acc (encVarintField 4 v ++ rest) =
      runParse spotHandler { acc with page_number := v % 2 ^ 32 } rest := by
  have hb : encVarintField 4 v ++ rest =
      encodeVarint 32 ++ (encodeVarint (v % 2 ^ 32) ++ rest) := by
    simp [encVarintField]
  rw [hb]
  refine runParse_field (f := 4) (w := 0) spotHandler_len (by omega) ?_
  simp only [spotHandler]
  exact viaRd_enc readU32 (fun a w => { a with page_number := w }) acc (readU32_enc v rest)


theorem runParse_index_id (acc : IndexPayload) (s : String) (rest : List Nat) :
    runParse indexHandler acc (encStrField 1 s ++ rest) =
      runParse indexHandler { acc with id := s } rest := by
  have hb : encStrField 1 s ++ rest =
      encodeVarint 10 ++ (encodeVarint (strBytes s).length ++ (strBytes s ++ rest)) := by
    simp [encStrField, encLenField]
  rw [hb]
  refine runParse_field (f := 1) (w := 2) indexHandler_len (by omega) ?_
  simp only [indexHandler]
  exact viaRd_enc readStr (fun a v => { a with id := v }) acc (readStr_enc s rest)


theorem runParse_index_description (acc : IndexPayload) (s : String) (rest : List Nat) :
    runParse indexHandler acc (encStrField 2 s ++ rest) =
      runParse indexHandler { acc with description := s } rest := by
  have hb : encStrField 2 s ++ rest =
      encodeVarint 18 ++ (encodeVarint (strBytes s).length ++ (strBytes s ++ rest)) := by
    simp [encStrField, encLenField]
  rw [hb]
  refine runParse_field (f := 2) (w := 2) indexHandler_len (by omega) ?_
  simp only [indexHandler]
  exact viaRd_enc readStr (fun a v => { a with description := v }) acc (readStr_enc s rest)


theorem runParse_index_page (acc : IndexPayload) (v : Nat) (rest : List Nat) :
    runParse indexHandler acc (encVarintField 3 v ++ rest) =
      runParse indexHandler { acc with page_number := v % 2 ^ 32 } rest := by
  have hb : encVarintField 3 v ++ rest =
      encodeVarint 24 ++ (encodeVarint (v % 2 ^ 32) ++ rest) := by
    simp [encVarintField]
  rw [hb]
  refine runParse_field (f := 3) (w := 0) indexHandler_len (by omega) ?_
  simp only [indexHandler]
  exact viaRd_enc readU32 (fun a w => { a with page_number := w }) acc (readU32_enc v rest)


theorem runParse_index_reference (acc : IndexPayload) (s : String) (rest : List Nat) :
    runParse indexHandler acc (encStrField 4 s ++ rest) =
      runParse indexHandler { acc with document_reference := s } rest := by
  have hb : encStrField 4 s ++ rest =
      encodeVarint 34 ++ (encodeVarint (strBytes s).length ++ (strBytes s ++ rest)) := by
    simp [encStrField, encLenField]
  rw [hb]
  refine runParse_field (f := 4) (w := 2) indexHandler_len (by omega) ?_
  simp only [indexHandler]
  exact viaRd_enc readStr (fun a v => { a with document_reference := v }) acc (readStr_enc s rest)


theorem runParse_legal_subject (acc : LegalSubjectPayload) (s : String) (rest : List Nat) :
    runParse legalHandler acc (encStrField 1 s ++ rest) =
      runParse legalHandler { acc with subject := s } rest := by
  have hb : encStrField 1 s ++ rest =
      encodeVarint 10 ++ (encodeVarint (strBytes s).length ++ (strBytes s ++ rest)) := by
    simp [encStrField, encLenField]
  rw [hb]
  refine runParse_field (f := 1) (w := 2) legalHandler_len (by omega) ?_
  simp only [legalHandler]
  exact viaRd_enc readStr (fun a v => { a with subject := v }) acc (readStr_enc s rest)


theorem runParse_legal_evidence (acc : LegalSubjectPayload) (s : String) (rest : List Nat) :
    runParse legalHandler acc (encStrField 3 s ++ rest) =
      runParse legalHandler { acc with evidence := s } rest := by
  have hb : encStrField 3 s ++ rest =
      encodeVarint 26 ++ (encodeVarint (strBytes s).length ++ (strBytes s ++ rest)) := by
    simp [encStrField, encLenField]
  rw [hb]
  refine runParse_field (f := 3) (w := 2) legalHandler_len (by omega) ?_
  simp only [legalHandler]
  exact viaRd_enc readStr (fun a v => { a with evidence := v }) acc (readStr_enc s rest)


theorem runParse_legal_severity (acc : LegalSubjectPayload) (s : String) (rest : List Nat) :
    runParse legalHandler acc (encStrField 4 s ++ rest) =
      runParse legalHandler { acc with severity := s } rest := by
  have hb : encStrField 4 s ++ rest =
      encodeVarint 34 ++ (encodeVarint (strBytes s).length ++ (strBytes s ++ rest)) := by
    simp [encStrField, encLenField]
  rw [hb]
  refine runParse_field (f := 4) (w := 2) legalHandler_len (by omega) ?_
  simp only [legalHandler]
  exact viaRd_enc readStr (fun a v => { a with severity := v }) acc (readStr_enc s rest)


theorem runParse_dish_flag (acc : DishonestyPayload) (s : String) (rest : List Nat) :
    runParse dishonestyHandler acc (encStrField 1 s ++ rest) =
      runParse dishonestyHandler { acc with flag := s } rest := by
  have hb : encStrField 1 s ++ rest =
      encodeVarint 10 ++ (encodeVarint (strBytes s).length ++ (strBytes s ++ rest)) := by
    simp [encStrField, encLenField]
  rw [hb]
  refine runParse_field (f := 1) (w := 2) dishonestyHandler_len (by omega) ?_
  simp only [dishonestyHandler]
  exact viaRd_enc readStr (fun a v => { a with flag := v }) acc (readStr_enc s rest)


theorem runParse_dish_description (acc : DishonestyPayload) (s : String) (rest : List Nat) :
    runParse dishonestyHandler acc (encStrField 2 s ++ rest) =
      runParse dishonestyHandler { acc with description := s } rest := by
  have hb : encStrField 2 s ++ rest =
      encodeVarint 18 ++ (encodeVarint (strBytes s).length ++ (strBytes s ++ rest)) := by
    simp [encStrField, encLenField]
  rw [hb]
  refine runParse_field (f := 2) (w := 2) dishonestyHandler_len (by omega) ?_
  simp only [dishonestyHandler]
  exact viaRd_enc readStr (fun a v => { a with description := v }) acc (readStr_enc s rest)


theorem runParse_dish_evidence (acc : DishonestyPayload) (s : String) (rest : List Nat) :
    runParse dishonestyHandler acc (encStrField 3 s ++ rest) =
      runParse dishonestyHandler { acc with evidence := s } rest := by
  have hb : encStrField 3 s ++ rest =
      encodeVarint 26 ++ (encodeVarint (strBytes s).length ++ (strBytes s ++ rest)) := by
    simp [encStrField, encLenField]
  rw [hb]
  refine runParse_field (f := 3) (w := 2) dishonestyHandler_len (by omega) ?_
  simp only [dishonestyHandler]
  exact viaRd_enc readStr (fun a v => { a with evidence := v }) acc (readStr_enc s rest)


theorem runParse_dish_severity (acc : DishonestyPayload) (s : String) (rest : List Nat) :
    runParse dishonestyHandler acc (encStrField 4 s ++ rest) =
      runParse dishonestyHandler { acc with severity := s } rest := by
  have hb : encStrField 4 s ++ rest =
      encodeVarint 34 ++ (encodeVarint (strBytes s).length ++ (strBytes s ++ rest)) := by
    simp [encStrField, encLenField]
  rw [hb]
  refine runParse_field (f := 4) (w := 2) dishonestyHandler_len (by omega) ?_
  simp only [dishonestyHandler]
  exact viaRd_enc readStr (fun a v => { a with severity := v }) acc (readStr_enc s rest)


theorem runParse_rec_jurisdiction (acc : RecommendedActionPayload) (s : String) (rest : List Nat) :
    runParse recActionHandler acc (encStrField 1 s ++ rest) =
      runParse recActionHandler { acc with jurisdiction := s } rest := by
  have hb : encStrField 1 s ++ rest =
      encodeVarint 10 ++ (encodeVarint (strBytes s).length ++ (strBytes s ++ rest)) := by
    simp [encStrField, encLenField]
  rw [hb]
  refine runParse_field (f := 1) (w := 2) recActionHandler_len (by omega) ?_
  simp only [recActionHandler]
  exact viaRd_enc readStr (fun a v => { a with jurisdiction := v }) acc (readStr_enc s rest)


theorem runParse_rec_action (acc : RecommendedActionPayload) (s : String) (rest : List Nat) :
    runParse recActionHandler acc (encStrField 2 s ++ rest) =
      runParse recActionHandler { acc with action := s } rest := by
  have hb : encStrField 2 s ++ rest =
      encodeVarint 18 ++ (encodeVarint (strBytes s).length ++ (strBytes s ++ rest)) := by
    simp [encStrField, encLenField]
  rw [hb]
  refine runParse_field (f := 2) (w := 2) recActionHandler_len (by omega) ?_
  simp only [recActionHandler]
  exact viaRd_enc readStr (fun a v => { a with action := v }) acc (readStr_enc s rest)


theorem runParse_rec_basis (acc : RecommendedActionPayload) (s : String) (rest : List Nat) :
    runParse recActionHandler acc (encStrField 3 s ++ rest) =
      runParse recActionHandler { acc with legal_basis := s } rest := by
  have hb : encStrField 3 s ++ rest =
      encodeVarint 26 ++ (encodeVarint (strBytes s).length ++ (strBytes s ++ rest)) := by
    simp [encStrField, encLenField]
  rw [hb]
  refine runParse_field (f := 3) (w := 2) recActionHandler_len (by omega) ?_
  simp only [recActionHandler]
  exact viaRd_enc readStr (fun a v => { a with legal_basis := v }) acc (readStr_enc s rest)


theorem runParse_liab_name (acc : TopLiability) (s : String) (rest : List Nat) :
    runParse topLiabilityHandler acc (encStrField 1 s ++ rest) =
      runParse topLiabilityHandler { acc with name := s } rest := by
  have hb : encStrField 1 s ++ rest =
      encodeVarint 10 ++ (encodeVarint (strBytes s).length ++ (strBytes s ++ rest)) := by
    simp [encStrField, encLenField]
  rw [hb]
  refine runParse_field (f := 1) (w := 2) topLiabilityHandler_len (by omega) ?_
  simp only [topLiabilityHandler]
  exact viaRd_enc readStr (fun a v => { a with name := v }) acc (readStr_enc s rest)


theorem runParse_liab_severity (acc : TopLiability) (s : String) (rest : List Nat) :
    runParse topLiabilityHandler acc (encStrField 2 s ++ rest) =
      runParse topLiabilityHandler { acc with severity := s } rest := by
  have hb : encStrField 2 s ++ rest =
      encodeVarint 18 ++ (encodeVarint (strBytes s).length ++ (strBytes s ++ rest)) := by
    simp [encStrField, encLenField]
  rw [hb]
  refine runParse_field (f := 2) (w := 2) topLiabilityHandler_len (by omega) ?_
  simp only [topLiabilityHandler]
  exact viaRd_enc readStr (fun a v => { a with severity := v }) acc (readStr_enc s rest)


theorem runParse_pre_extraction (acc : PreAnalysisChecksPayload) (b : Bool) (rest : List Nat) :
    runParse preChecksHandler acc (encBoolField 1 b ++ rest) =
      runParse preChecksHandler { acc with extraction_protocol := b } rest := by
  have hb : encBoolField 1 b ++ rest =
      encodeVarint 8 ++ (encodeVarint (if b then 1 else 0) ++ rest) := by
    simp [encBoolField]
  rw [hb]
  refine runParse_field (f := 1) (w := 0) preChecksHandler_len (by omega) ?_
  simp only [preChecksHandler]
  exact viaRd_enc readBool (fun a w => { a with extraction_protocol := w }) acc (readBool_enc b rest)


theorem runParse_pre_preservation (acc : PreAnalysisChecksPayload) (b : Bool) (rest : List Nat) :
    runParse preChecksHandler acc (encBoolField 2 b ++ rest) =
      runParse preChecksHandler { acc with preservation_flags := b } rest := by
  have hb : encBoolField 2 b ++ rest =
      encodeVarint 16 ++ (encodeVarint (if b then 1 else 0) ++ rest) := by
    simp [encBoolField]
  rw [hb]
  refine runParse_field (f := 2) (w := 0) preChecksHandler_len (by omega) ?_
  simp only [preChecksHandler]
  exact viaRd_enc readBool (fun a w => { a with preservation_flags := w }) acc (readBool_enc b rest)


theorem runParse_pre_scope (acc : PreAnalysisChecksPayload) (b : Bool) (rest : List Nat) :
    runParse preChecksHandler acc (encBoolField 3 b ++ rest) =
      runParse preChecksHandler { acc with scope := b } rest := by
  have hb : encBoolField 3 b ++ rest =
      encodeVarint 24 ++ (encodeVarint (if b then 1 else 0) ++ rest) := by
    simp [encBoolField]
  rw [hb]
  refine runParse_field (f := 3) (w := 0) preChecksHandler_len (by omega) ?_
  simp only [preChecksHandler]
  exact viaRd_enc readBool (fun a w => { a with scope := w }) acc (readBool_enc b rest)


theorem runParse_post_extraction (acc : PostAnalysisDeclarationPayload) (b : Bool) (rest : List Nat) :
    runParse postDeclHandler acc (encBoolField 1 b ++ rest) =
      runParse postDeclHandler { acc with extraction_complete := b } rest := by
  have hb : encBoolField 1 b ++ rest =
      encodeVarint 8 ++ (encodeVarint (if b then 1 else 0) ++ rest) := by
    simp [encBoolField]
  rw [hb]
  refine runParse_field (f := 1) (w := 0) postDeclHandler_len (by omega) ?_
  simp only [postDeclHandler]
  exact viaRd_enc readBool (fun a w => { a with extraction_complete := w }) acc (readBool_enc b rest)


theorem runParse_post_integrity (acc : PostAnalysisDeclarationPayload) (b : Bool) (rest : List Nat) :
    runParse postDeclHandler acc (encBoolField 2 b ++ rest) =
      runParse postDeclHandler { acc with integrity_seals_verified := b } rest := by
  have hb : encBoolField 2 b ++ rest =
      encodeVarint 16 ++ (encodeVarint (if b then 1 else 0) ++ rest) := by
    simp [encBoolField]
  rw [hb]
  refine runParse_field (f := 2) (w := 0) postDeclHandler_len (by omega) ?_
  simp only [postDeclHandler]
  exact viaRd_enc readBool (fun a w => { a with integrity_seals_verified := w }) acc (readBool_enc b rest)


theorem runParse_post_logs (acc : PostAnalysisDeclarationPayload) (s : String) (rest : List Nat) :
    runParse postDeclHandler acc (encStrField 3 s ++ rest) =
      runParse postDeclHandler { acc with logs := s } rest := by
  have hb : encStrField 3 s ++ rest =
      encodeVarint 26 ++ (encodeVarint (strBytes s).length ++ (strBytes s ++ rest)) := by
    simp [encStrField, encLenField]
  rw [hb]
  refine runParse_field (f := 3) (w := 2) postDeclHandler_len (by omega) ?_
  simp only [postDeclHandler]
  exact viaRd_enc readStr (fun a v => { a with logs := v }) acc (readStr_enc s rest)


theorem runParse_post_seal (acc : PostAnalysisDeclarationPayload) (s : String) (rest : List Nat) :
    runParse postDeclHandler acc (encStrField 4 s ++ rest) =
      runParse postDeclHandler { acc with «seal» := s } rest := by
  have hb : encStrField 4 s ++ rest =
      encodeVarint 34 ++ (encodeVarint (strBytes s).length ++ (strBytes s ++ rest)) := by
    simp [encStrField, encLenField]
  rw [hb]
  refine runParse_field (f := 4) (w := 2) postDeclHandler_len (by omega) ?_
  simp only [postDeclHandler]
  exact viaRd_enc readStr (fun a v => { a with «seal» := v }) acc (readStr_enc s rest)


theorem runParse_legal_kp_one (acc : LegalSubjectPayload) (s : String) (rest : List Nat) :
    runParse legalHandler acc (encStrField 2 s ++ rest) =
      runParse legalHandler { acc with key_points := acc.key_points ++ [s] } rest := by
  have hb : encStrField 2 s ++ rest =
      encodeVarint 18 ++ (encodeVarint (strBytes s).length ++ (strBytes s ++ rest)) := by
    simp [encStrField, encLenField]
  rw [hb]
  refine runParse_field (f := 2) (w := 2) legalHandler_len (by omega) ?_
  simp only [legalHandler]
  exact viaRd_enc readStr (fun a v => { a with key_points := a.key_points ++ [v] }) acc
    (readStr_enc s rest)


theorem runParse_legal_kp (acc : LegalSubjectPayload) (l : List String) (rest : List Nat) :
    runParse legalHandler acc (encRepeatedStr 2 l ++ rest) =
      runParse legalHandler { acc with key_points := acc.key_points ++ l } rest := by
  induction l generalizing acc with
  | nil =>
    simp only [encRepeatedStr, List.nil_append, List.append_nil]
  | cons x xs ih =>
    simp only [encRepeatedStr, List.append_assoc]
    rw [runParse_legal_kp_one, ih]
    have h : (acc.key_points ++ [x]) ++ xs = acc.key_points ++ x :: xs := by simp
    rw [h]


theorem runParse_encSpotlight (acc m : SpotlightPayload) (rest : List Nat) :
    runParse spotHandler acc (encSpotlight m ++ rest) = runParse spotHandler (normSpot m) rest := by
  simp only [encSpotlight, List.append_assoc]
  rw [runParse_spot_title, runParse_spot_significance, runParse_spot_reference, runParse_spot_page]
  rfl


theorem runParse_encSpotlight_run (m : SpotlightPayload) :
    runParse spotHandler spotlightDefault (encSpotlight m) = .ok (normSpot m) := by
  have h := runParse_encSpotlight spotlightDefault m []
  rw [List.append_nil] at h
  rw [h, runParse_nil]


theorem runParse_encIndex (acc m : IndexPayload) (rest : List Nat) :
    runParse indexHandler acc (encIndex m ++ rest) = runParse indexHandler (normIndex m) rest := by
  simp only [encIndex, List.append_assoc]
  rw [runParse_index_id, runParse_index_description, runParse_index_page, runParse_index_reference]
  rfl


theorem runParse_encIndex_run (m : IndexPayload) :
    runParse indexHandler indexDefault (encIndex m) = .ok (normIndex m) := by
  have h := runParse_encIndex indexDefault m []
  rw [List.append_nil] at h
  rw [h, runParse_nil]


theorem runParse_encLegal (acc m : LegalSubjectPayload) (rest : List Nat) :
    runParse legalHandler acc (encLegal m ++ rest) =
      runParse legalHandler ⟨m.subject, acc.key_points ++ m.key_points, m.evidence, m.severity⟩ rest := by
  simp only [encLegal, List.append_assoc]
  rw [runParse_legal_subject, runParse_legal_kp, runParse_legal_evidence, runParse_legal_severity]


theorem runParse_encLegal_run (m : LegalSubjectPayload) :
    runParse legalHandler legalDefault (encLegal m) = .ok m := by
  have h := runParse_encLegal legalDefault m []
  rw [List.append_nil] at h
  rw [h, runParse_nil]
  rfl


theorem runParse_encDishonesty (acc m : DishonestyPayload) (rest : List Nat) :
    runParse dishonestyHandler acc (encDishonesty m ++ rest) = runParse dishonestyHandler m rest := by
  simp only [encDishonesty, List.append_assoc]
  rw [runParse_dish_flag, runParse_dish_description, runParse_dish_evidence, runParse_dish_severity]


theorem runParse_encDishonesty_run (m : DishonestyPayload) :
    runParse dishonestyHandler dishonestyDefault (encDishonesty m) = .ok m := by
  have h := runParse_encDishonesty dishonestyDefault m []
  rw [List.append_nil] at h
  rw [h, runParse_nil]


theorem runParse_encRecAction (acc m : RecommendedActionPayload) (rest : List Nat) :
    runParse recActionHandler acc (encRecAction m ++ rest) = runParse recActionHandler m rest := by
  simp only [encRecAction, List.append_assoc]
  rw [runParse_rec_jurisdiction, runParse_rec_action, runParse_rec_basis]


theorem runParse_encRecAction_run (m : RecommendedActionPayload) :
    runParse recActionHandler recActionDefault (encRecAction m) = .ok m := by
  have h := runParse_encRecAction recActionDefault m []
  rw [List.append_nil] at h
  rw [h, runParse_nil]


theorem runParse_encTopLiability (acc m : TopLiability) (rest : List Nat) :
    runParse topLiabilityHandler acc (encTopLiability m ++ rest) =
      runParse topLiabilityHandler m rest := by
  simp only [encTopLiability, List.append_assoc]
  rw [runParse_liab_name, runParse_liab_severity]


theorem runParse_encTopLiability_run (m : TopLiability) :
    runParse topLiabilityHandler topLiabilityDefault (encTopLiability m) = .ok m := by
  have h := runParse_encTopLiability topLiabilityDefault m []
  rw [List.append_nil] at h
  rw [h, runParse_nil]


theorem runParse_encPreChecks (acc m : PreAnalysisChecksPayload) (rest : List Nat) :
    runParse preChecksHandler acc (encPreChecks m ++ rest) = runParse preChecksHandler m rest := by
  simp only [encPreChecks, List.append_assoc]
  rw [runParse_pre_extraction, runParse_pre_preservation, runParse_pre_scope]


theorem runParse_encPreChecks_run (m : PreAnalysisChecksPayload) :
    runParse preChecksHandler preChecksDefault (encPreChecks m) = .ok m := by
  have h := runParse_encPreChecks preChecksDefault m []
  rw [List.append_nil] at h
  rw [h, runParse_nil]


theorem runParse_encPostDecl (acc m : PostAnalysisDeclarationPayload) (rest : List Nat) :
    runParse postDeclHandler acc (encPostDecl m ++ rest) = runParse postDeclHandler m rest := by
  simp only [encPostDecl, List.append_assoc]
  rw [runParse_post_extraction, runParse_post_integrity, runParse_post_logs, runParse_post_seal]


theorem runParse_encPostDecl_run (m : PostAnalysisDeclarationPayload) :
    runParse postDeclHandler postDeclDefault (encPostDecl m) = .ok m := by
  have h := runParse_encPostDecl postDeclDefault m []
  rw [List.append_nil] at h
  rw [h, runParse_nil]


theorem runParse_actOut_liab_one (acc : ActionableOutputPayload) (m : TopLiability) (rest : List Nat) :
    runParse actOutputHandler acc (encLenField 1 (encTopLiability m) ++ rest) =
      runParse actOutputHandler { acc with top_liabilities := acc.top_liabilities ++ [m] } rest := by
  have hb : encLenField 1 (encTopLiability m) ++ rest =
      encodeVarint 10 ++ (encodeVarint (encTopLiability m).length ++ (encTopLiability m ++ rest)) := by
    simp [encLenField]
  rw [hb]
  refine runParse_field (f := 1) (w := 2) actOutputHandler_len (by omega) ?_
  simp only [actOutputHandler]
  exact viaRd_enc (readMsg topLiabilityHandler topLiabilityDefault)
    (fun a w => { a with top_liabilities := a.top_liabilities ++ [w] }) acc
    (readMsg_enc rest (runParse_encTopLiability_run m))


theorem runParse_actOut_liab (acc : ActionableOutputPayload) (l : List TopLiability) (rest : List Nat) :
    runParse actOutputHandler acc (encRepeatedMsg 1 encTopLiability l ++ rest) =
      runParse actOutputHandler { acc with top_liabilities := acc.top_liabilities ++ l } rest := by
  induction l generalizing acc with
  | nil =>
    simp only [encRepeatedMsg, List.nil_append, List.map_nil, List.append_nil]
  | cons x xs ih =>
    simp only [encRepeatedMsg, List.append_assoc, List.map_cons]
    rw [runParse_actOut_liab_one, ih]
    simp [List.append_assoc]


theorem runParse_actOut_score (acc : ActionableOutputPayload) (v : Nat) (rest : List Nat) :
    runParse actOutputHandler acc (encVarintField 2 v ++ rest) =
      runParse actOutputHandler { acc with dishonesty_score := v % 2 ^ 32 } rest := by
  have hb : encVarintField 2 v ++ rest =
      encodeVarint 16 ++ (encodeVarint (v % 2 ^ 32) ++ rest) := by
    simp [encVarintField]
  rw [hb]
  refine runParse_field (f := 2) (w := 0) actOutputHandler_len (by omega) ?_
  simp only [actOutputHandler]
  exact viaRd_enc readU32 (fun a w => { a with dishonesty_score := w }) acc (readU32_enc v rest)


theorem runParse_actOut_rec_one (acc : ActionableOutputPayload) (m : RecommendedActionPayload) (rest : List Nat) :
    runParse actOutputHandler acc (encLenField 3 (encRecAction m) ++ rest) =
      runParse actOutputHandler { acc with recommended_actions := acc.recommended_actions ++ [m] } rest := by
  have hb : encLenField 3 (encRecAction m) ++ rest =
      encodeVarint 26 ++ (encodeVarint (encRecAction m).length ++ (encRecAction m ++ rest)) := by
    simp [encLenField]
  rw [hb]
  refine runParse_field (f := 3) (w := 2) actOutputHandler_len (by omega) ?_
  simp only [actOutputHandler]
  exact viaRd_enc (readMsg recActionHandler recActionDefault)
    (fun a w => { a with recommended_actions := a.recommended_actions ++ [w] }) acc
    (readMsg_enc rest (runParse_encRecAction_run m))


theorem runParse_actOut_rec (acc : ActionableOutputPayload) (l : List RecommendedActionPayload) (rest : List Nat) :
    runParse actOutputHandler acc (encRepeatedMsg 3 encRecAction l ++ rest) =
      runParse actOutputHandler { acc with recommended_actions := acc.recommended_actions ++ l } rest := by
  induction l generalizing acc with
  | nil =>
    simp only [encRepeatedMsg, List.nil_append, List.map_nil, List.append_nil]
  | cons x xs ih =>
    simp only [encRepeatedMsg, List.append_assoc, List.map_cons]
    rw [runParse_actOut_rec_one, ih]
    simp [List.append_assoc]


theorem runParse_actOut_summary (acc : ActionableOutputPayload) (s : String) (rest : List Nat) :
    runParse actOutputHandler acc (encStrField 4 s ++ rest) =
      runParse actOutputHandler { acc with summary := s } rest := by
  have hb : encStrField 4 s ++ rest =
      encodeVarint 34 ++ (encodeVarint (strBytes s).length ++ (strBytes s ++ rest)) := by
    simp [encStrField, encLenField]
  rw [hb]
  refine runParse_field (f := 4) (w := 2) actOutputHandler_len (by omega) ?_
  simp only [actOutputHandler]
  exact viaRd_enc readStr (fun a v => { a with summary := v }) acc (readStr_enc s rest)


theorem runParse_encActOutput (acc m : ActionableOutputPayload) (rest : List Nat) :
    runParse actOutputHandler acc (encActOutput m ++ rest) =
      runParse actOutputHandler
        ⟨acc.top_liabilities ++ m.top_liabilities, m.dishonesty_score % 2 ^ 32,
          acc.recommended_actions ++ m.recommended_actions, m.summary⟩ rest := by
  simp only [encActOutput, List.append_assoc]
  rw [runParse_actOut_liab, runParse_actOut_score, runParse_actOut_rec, runParse_actOut_summary]


theorem runParse_encActOutput_run (m : ActionableOutputPayload) :
    runParse actOutputHandler actOutputDefault (encActOutput m) = .ok (normActOut m) := by
  have h := runParse_encActOutput actOutputDefault m []
  rw [List.append_nil] at h
  rw [h, runParse_nil]
  rfl


theorem runParse_root_version (acc : ProtoPayload) (v : Nat) (rest : List Nat) :
    runParse rootHandler acc (encVarintField 1 v ++ rest) =
      runParse rootHandler { acc with protocol_version := v % 2 ^ 32 } rest := by
  have hb : encVarintField 1 v ++ rest =
      encodeVarint 8 ++ (encodeVarint (v % 2 ^ 32) ++ rest) := by
    simp [encVarintField]
  rw [hb]
  refine runParse_field (f := 1) (w := 0) rootHandler_len (by omega) ?_
  simp only [rootHandler]
  exact viaRd_enc readU32 (fun a w => { a with protocol_version := w }) acc (readU32_enc v rest)


theorem runParse_root_timestamp (acc : ProtoPayload) (s : String) (rest : List Nat) :
    runParse rootHandler acc (encStrField 2 s ++ rest) =
      runParse rootHandler { acc with analysis_timestamp_utc := s } rest := by
  have hb : encStrField 2 s ++ rest =
      encodeVarint 18 ++ (encodeVarint (strBytes s).length ++ (strBytes s ++ rest)) := by
    simp [encStrField, encLenField]
  rw [hb]
  refine runParse_field (f := 2) (w := 2) rootHandler_len (by omega) ?_
  simp only [rootHandler]
  exact viaRd_enc readStr (fun a v => { a with analysis_timestamp_utc := v }) acc (readStr_enc s rest)


theorem runParse_root_hash (acc : ProtoPayload) (s : String) (rest : List Nat) :
    runParse rootHandler acc (encStrField 3 s ++ rest) =
      runParse rootHandler { acc with document_hash := s } rest := by
  have hb : encStrField 3 s ++ rest =
      encodeVarint 26 ++ (encodeVarint (strBytes s).length ++ (strBytes s ++ rest)) := by
    simp [encStrField, encLenField]
  rw [hb]
  refine runParse_field (f := 3) (w := 2) rootHandler_len (by omega) ?_
  simp only [rootHandler]
  exact viaRd_enc readStr (fun a v => { a with document_hash := v }) acc (readStr_enc s rest)


theorem runParse_root_fileName (acc : ProtoPayload) (s : String) (rest : List Nat) :
    runParse rootHandler acc (encStrField 4 s ++ rest) =
      runParse rootHandler { acc with file_name := s } rest := by
  have hb : encStrField 4 s ++ rest =
      encodeVarint 34 ++ (encodeVarint (strBytes s).length ++ (strBytes s ++ rest)) := by
    simp [encStrField, encLenField]
  rw [hb]
  refine runParse_field (f := 4) (w := 2) rootHandler_len (by omega) ?_
  simp only [rootHandler]
  exact viaRd_enc readStr (fun a v => { a with file_name := v }) acc (readStr_enc s rest)


theorem runParse_root_narrative (acc : ProtoPayload) (s : String) (rest : List Nat) :
    runParse rootHandler acc (encStrField 5 s ++ rest) =
      runParse rootHandler { acc with case_narrative := s } rest := by
  have hb : encStrField 5 s ++ rest =
      encodeVarint 42 ++ (encodeVarint (strBytes s).length ++ (strBytes s ++ rest)) := by
    simp [encStrField, encLenField]
  rw [hb]
  refine runParse_field (f := 5) (w := 2) rootHandler_len (by omega) ?_
  simp only [rootHandler]
  exact viaRd_enc readStr (fun a v => { a with case_narrative := v }) acc (readStr_enc s rest)


theorem runParse_root_spot_one (acc : ProtoPayload) (m : SpotlightPayload) (rest : List Nat) :
    runParse rootHandler acc (encLenField 6 (encSpotlight m) ++ rest) =
      runParse rootHandler { acc with evidence_spotlight := acc.evidence_spotlight ++ [normSpot m] } rest := by
  have hb : encLenField 6 (encSpotlight m) ++ rest =
      encodeVarint 50 ++ (encodeVarint (encSpotlight m).length ++ (encSpotlight m ++ rest)) := by
    simp [encLenField]
  rw [hb]
  refine runParse_field (f := 6) (w := 2) rootHandler_len (by omega) ?_
  simp only [rootHandler]
  exact viaRd_enc (readMsg spotHandler spotlightDefault)
    (fun a w => { a with evidence_spotlight := a.evidence_spotlight ++ [w] }) acc
    (readMsg_enc rest (runParse_encSpotlight_run m))


theorem runParse_root_spotlight (acc : ProtoPayload) (l : List SpotlightPayload) (rest : List Nat) :
    runParse rootHandler acc (encRepeatedMsg 6 encSpotlight l ++ rest) =
      runParse rootHandler { acc with evidence_spotlight := acc.evidence_spotlight ++ l.map normSpot } rest := by
  induction l generalizing acc with
  | nil =>
    simp only [encRepeatedMsg, List.nil_append, List.map_nil, List.append_nil]
  | cons x xs ih =>
    simp only [encRepeatedMsg, List.append_assoc, List.map_cons]
    rw [runParse_root_spot_one, ih]
    simp [List.append_assoc]


theorem runParse_root_index_one (acc : ProtoPayload) (m : IndexPayload) (rest : List Nat) :
    runParse rootHandler acc (encLenField 7 (encIndex m) ++ rest) =
      runParse rootHandler { acc with evidence_index := acc.evidence_index ++ [normIndex m] } rest := by
  have hb : encLenField 7 (encIndex m) ++ rest =
      encodeVarint 58 ++ (encodeVarint (encIndex m).length ++ (encIndex m ++ rest)) := by
    simp [encLenField]
  rw [hb]
  refine runParse_field (f := 7) (w := 2) rootHandler_len (by omega) ?_
  simp only [rootHandler]
  exact viaRd_enc (readMsg indexHandler indexDefault)
    (fun a w => { a with evidence_index := a.evidence_index ++ [w] }) acc
    (readMsg_enc rest (runParse_encIndex_run m))


theorem runParse_root_index (acc : ProtoPayload) (l : List IndexPayload) (rest : List Nat) :
    runParse rootHandler acc (encRepeatedMsg 7 encIndex l ++ rest) =
      runParse rootHandler { acc with evidence_index := acc.evidence_index ++ l.map normIndex } rest := by
  induction l generalizing acc with
  | nil =>
    simp only [encRepeatedMsg, List.nil_append, List.map_nil, List.append_nil]
  | cons x xs ih =>
    simp only [encRepeatedMsg, List.append_assoc, List.map_cons]
    rw [runParse_root_index_one, ih]
    simp [List.append_assoc]


theorem runParse_root_pre (acc : ProtoPayload) (o : Option PreAnalysisChecksPayload) (rest : List Nat) :
    runParse rootHandler acc (encOptMsg 8 encPreChecks o ++ rest) =
      runParse rootHandler
        { acc with pre_analysis_checks :=
            match o with
            | none => acc.pre_analysis_checks
            | some m => some (m) } rest := by
  cases o with
  | none =>
    simp only [encOptMsg, List.nil_append]
  | some m =>
    have hb : encOptMsg 8 encPreChecks (some m) ++ rest =
        encodeVarint 66 ++ (encodeVarint (encPreChecks m).length ++ (encPreChecks m ++ rest)) := by
      simp [encOptMsg, encLenField]
    rw [hb]
    refine runParse_field (f := 8) (w := 2) rootHandler_len (by omega) ?_
    simp only [rootHandler]
    exact viaRd_enc (readMsg preChecksHandler preChecksDefault) (fun a w => { a with pre_analysis_checks := some w }) acc
      (readMsg_enc rest (runParse_encPreChecks_run m))


theorem runParse_root_legal_one (acc : ProtoPayload) (m : LegalSubjectPayload) (rest : List Nat) :
    runParse rootHandler acc (encLenField 9 (encLegal m) ++ rest) =
      runParse rootHandler { acc with critical_legal_subjects := acc.critical_legal_subjects ++ [m] } rest := by
  have hb : encLenField 9 (encLegal m) ++ rest =
      encodeVarint 74 ++ (encodeVarint (encLegal m).length ++ (encLegal m ++ rest)) := by
    simp [encLenField]
  rw [hb]
  refine runParse_field (f := 9) (w := 2) rootHandler_len (by omega) ?_
  simp only [rootHandler]
  exact viaRd_enc (readMsg legalHandler legalDefault)
    (fun a w => { a with critical_legal_subjects := a.critical_legal_subjects ++ [w] }) acc
    (readMsg_enc rest (runParse_encLegal_run m))


theorem runParse_root_legal (acc : ProtoPayload) (l : List LegalSubjectPayload) (rest : List Nat) :
    runParse rootHandler acc (encRepeatedMsg 9 encLegal l ++ rest) =
      runParse rootHandler { acc with critical_legal_subjects := acc.critical_legal_subjects ++ l } rest := by
  induction l generalizing acc with
  | nil =>
    simp only [encRepeatedMsg, List.nil_append, List.map_nil, List.append_nil]
  | cons x xs ih =>
    simp only [encRepeatedMsg, List.append_assoc, List.map_cons]
    rw [runParse_root_legal_one, ih]
    simp [List.append_assoc]


theorem runParse_root_dish_one (acc : ProtoPayload) (m : DishonestyPayload) (rest : List Nat) :
    runParse rootHandler acc (encLenField 10 (encDishonesty m) ++ rest) =
      runParse rootHandler { acc with dishonesty_detection_matrix := acc.dishonesty_detection_matrix ++ [m] } rest := by
  have hb : encLenField 10 (encDishonesty m) ++ rest =
      encodeVarint 82 ++ (encodeVarint (encDishonesty m).length ++ (encDishonesty m ++ rest)) := by
    simp [encLenField]
  rw [hb]
  refine runParse_field (f := 10) (w := 2) rootHandler_len (by omega) ?_
  simp only [rootHandler]
  exact viaRd_enc (readMsg dishonestyHandler dishonestyDefault)
    (fun a w => { a with dishonesty_detection_matrix := a.dishonesty_detection_matrix ++ [w] }) acc
    (readMsg_enc rest (runParse_encDishonesty_run m))


theorem runParse_root_dish (acc : ProtoPayload) (l : List DishonestyPayload) (rest : List Nat) :
    runParse rootHandler acc (encRepeatedMsg 10 encDishonesty l ++ rest) =
      runParse rootHandler { acc with dishonesty_detection_matrix := acc.dishonesty_detection_matrix ++ l } rest := by
  induction l generalizing acc with
  | nil =>
    simp only [encRepeatedMsg, List.nil_append, List.map_nil, List.append_nil]
  | cons x xs ih =>
    simp only [encRepeatedMsg, List.append_assoc, List.map_cons]
    rw [runParse_root_dish_one, ih]
    simp [List.append_assoc]


theorem runParse_root_actOut (acc : ProtoPayload) (o : Option ActionableOutputPayload) (rest : List Nat) :
    runParse rootHandler acc (encOptMsg 11 encActOutput o ++ rest) =
      runParse rootHandler
        { acc with actionable_output :=
            match o with
            | none => acc.actionable_output
            | some m => some (normActOut m) } rest := by
  cases o with
  | none =>
    simp only [encOptMsg, List.nil_append]
  | some m =>
    have hb : encOptMsg 11 encActOutput (some m) ++ rest =
        encodeVarint 90 ++ (encodeVarint (encActOutput m).length ++ (encActOutput m ++ rest)) := by
      simp [encOptMsg, encLenField]
    rw [hb]
    refine runParse_field (f := 11) (w := 2) rootHandler_len (by omega) ?_
    simp only [rootHandler]
    exact viaRd_enc (readMsg actOutputHandler actOutputDefault) (fun a w => { a with actionable_output := some w }) acc
      (readMsg_enc rest (runParse_encActOutput_run m))


theorem runParse_root_postDecl (acc : ProtoPayload) (o : Option PostAnalysisDeclarationPayload) (rest : List Nat) :
    runParse rootHandler acc (encOptMsg 12 encPostDecl o ++ rest) =
      runParse rootHandler
        { acc with post_analysis_declaration :=
            match o with
            | none => acc.post_analysis_declaration
            | some m => some (m) } rest := by
  cases o with
  | none =>
    simp only [encOptMsg, List.nil_append]
  | some m =>
    have hb : encOptMsg 12 encPostDecl (some m) ++ rest =
        encodeVarint 98 ++ (encodeVarint (encPostDecl m).length ++ (encPostDecl m ++ rest)) := by
      simp [encOptMsg, encLenField]
    rw [hb]
    refine runParse_field (f := 12) (w := 2) rootHandler_len (by omega) ?_
    simp only [rootHandler]
    exact viaRd_enc (readMsg postDeclHandler postDeclDefault) (fun a w => { a with post_analysis_declaration := some w }) acc
      (readMsg_enc rest (runParse_encPostDecl_run m))


theorem runParse_encodePayload_gen (acc p : ProtoPayload) (rest : List Nat) :
    runParse rootHandler acc (encodePayload p ++ rest) =
      runParse rootHandler (mergeRoot acc p) rest := by
  simp only [encodePayload, List.append_assoc]
  rw [runParse_root_version, runParse_root_timestamp, runParse_root_hash, runParse_root_fileName,
    runParse_root_narrative, runParse_root_spotlight, runParse_root_index, runParse_root_pre,
    runParse_root_legal, runParse_root_dish, runParse_root_actOut, runParse_root_postDecl]
  rfl


/-- The central round-trip fact at the wire level: the generated decoder
reconstructs the encoder's payload exactly, up to 32-bit truncation of the
`uint32` fields. -/
theorem runParse_encodePayload (p : ProtoPayload) :
    runParse rootHandler payloadDefault (encodePayload p) = .ok (normPayload p) := by
  have h := runParse_encodePayload_gen payloadDefault p []
  rw [List.append_nil] at h
  rw [h, runParse_nil]
  have hmerge : mergeRoot payloadDefault p = normPayload p := by
    obtain ⟨pv, ts, dh, fn, cn, es, ei, pre, cls, ddm, ao, pad⟩ := p
    cases pre <;> cases ao <;> cases pad <;> rfl
  rw [hmerge]


theorem map_map_id {α β : Type} (f : α → β) (g : β → α) :
    ∀ (l : List α), (∀ x ∈ l, g (f x) = x) → (l.map f).map g = l := by
  intro l
  induction l with
  | nil => intro _; rfl
  | cons x xs ih =>
    intro h
    simp only [List.map_cons, List.cons.injEq]
    exact ⟨h x (by simp), ih (fun y hy => h y (by simp [hy]))⟩


theorem map_map_map_id {α β γ : Type} (f : α → β) (g : β → γ) (h : γ → α) :
    ∀ (l : List α), (∀ x ∈ l, h (g (f x)) = x) → ((l.map f).map g).map h = l := by
  intro l
  induction l with
  | nil => intro _; rfl
  | cons x xs ih =>
    intro hx
    simp only [List.map_cons, List.cons.injEq]
    exact ⟨hx x (by simp), ih (fun y hy => hx y (by simp [hy]))⟩


theorem fromProto_norm_toProto (r : AnalysisResult) (env : Env)
    (hwf : wellFormed r = true) (hsafe : roundTripSafe r = true) :
    fromProtoPayload (normPayload (toProtoPayload r env)) = .ok r := by
  obtain ⟨dh, fn, cn, es, ei, pre, cls, ddm, ao, pad⟩ := r
  cases pre with
  | none => simp [wellFormed] at hwf
  | some pc =>
  cases ao with
  | none => simp [wellFormed] at hwf
  | some a =>
  cases pad with
  | none => simp [wellFormed] at hwf
  | some pd =>
  obtain ⟨tl, score, recs, summ⟩ := a
  simp only [wellFormed, Bool.and_eq_true, List.all_eq_true, decide_eq_true_eq,
    Option.isSome_some] at hwf
  simp only [roundTripSafe, Bool.and_eq_true, Bool.not_eq_true', List.all_eq_true,
    decide_eq_true_eq, List.isEmpty_eq_false] at hsafe
  obtain ⟨⟨⟨⟨hsevCls, hsevDdm⟩, _⟩, hliab, hscore⟩, _⟩ := hwf
  obtain ⟨⟨⟨⟨⟨⟨⟨hes, hei⟩, hcls⟩, hddm⟩, hkp⟩, hesb⟩, heib⟩, htl, hrecs⟩ := hsafe
  simp only [toProtoPayload, normPayload, fromProtoPayload, Option.map, List.isEmpty_eq_true,
    List.map_eq_nil_iff, hes, hei, hcls, hddm, hrecs, normActOut, if_false]
  have h1 : List.map
      (fun item : SpotlightPayload =>
        ({ title := item.title, significance := item.significance,
           evidenceReference := item.evidence_reference,
           pageNumber := item.page_number } : EvidenceSpotlightItem))
      (List.map normSpot
        (List.map
          (fun item : EvidenceSpotlightItem =>
            ({ title := item.title, significance := item.significance,
               evidence_reference := item.evidenceReference,
               page_number := item.pageNumber } : SpotlightPayload))
          es)) = es := by
    refine map_map_map_id _ _ _ es (fun x hx => ?_)
    simp only [normSpot]
    rw [Nat.mod_eq_of_lt (hesb x hx)]
  have h2 : List.map
      (fun item : IndexPayload =>
        ({ id := item.id, description := item.description, pageNumber := item.page_number,
           documentReference := item.document_reference } : EvidenceIndexItem))
      (List.map normIndex
        (List.map
          (fun item : EvidenceIndexItem =>
            ({ id := item.id, description := item.description, page_number := item.pageNumber,
               document_reference := item.documentReference } : IndexPayload))
          ei)) = ei := by
    refine map_map_map_id _ _ _ ei (fun x hx => ?_)
    simp only [normIndex]
    rw [Nat.mod_eq_of_lt (heib x hx)]
  have h3 : List.map
      (fun item : LegalSubjectPayload =>
        ({ subject := item.subject, keyPoints := item.key_points, evidence := item.evidence,
           severity := item.severity } : LegalSubjectFinding))
      (List.map
        (fun item : LegalSubjectFinding =>
          ({ subject := item.subject, key_points := item.keyPoints, evidence := item.evidence,
             severity := item.severity } : LegalSubjectPayload))
        cls) = cls :=
    map_map_id _ _ cls (fun x _ => rfl)
  have h4 : List.map
      (fun item : DishonestyPayload =>
        ({ flag := item.flag, description := item.description, evidence := item.evidence,
           severity := item.severity } : DishonestyFinding))
      (List.map
        (fun item : DishonestyFinding =>
          ({ flag := item.flag, description := item.description, evidence := item.evidence,
             severity := item.severity } : DishonestyPayload))
        ddm) = ddm :=
    map_map_id _ _ ddm (fun x _ => rfl)
  have h5 : List.map
      (fun item : RecommendedActionPayload =>
        ({ jurisdiction := item.jurisdiction, action := item.action,
           legalBasis := item.legal_basis } : RecommendedAction))
      (List.map
        (fun item : RecommendedAction =>
          ({ jurisdiction := item.jurisdiction, action := item.action,
             legal_basis := item.legalBasis } : RecommendedActionPayload))
        recs) = recs :=
    map_map_id _ _ recs (fun x _ => rfl)
  have h6 : score % 2 ^ 32 = score := Nat.mod_eq_of_lt (by omega)
  rw [h1, h2, h3, h4, h5, h6]


theorem checkPageBreak_y_le (st : DocState) : (checkPageBreak st).y ≤ 25500 := by
  unfold checkPageBreak
  by_cases h : st.y > 25500
  · rw [if_pos h]
    show (2000 : Int) ≤ 25500
    decide
  · rw [if_neg h]
    omega


theorem checkPageBreak_noBreak (st : DocState) (h : st.y ≤ 25500) : checkPageBreak st = st := by
  unfold checkPageBreak
  rw [if_neg (by omega)]


theorem measureSpotBlock_ge (lib : PdfLib) (item : EvidenceSpotlightItem) :
    1200 ≤ measureSpotBlock lib item := by
  unfold measureSpotBlock
  have h1 : (0 : Int) ≤ ((lib.splitText (spotTitleText item) contentWidth 10).length * 10 * 45 : Nat) :=
    Int.natCast_nonneg _
  have h2 : (0 : Int) ≤ ((lib.splitText item.significance (contentWidth - 500) 9).length * 9 * 45 : Nat) :=
    Int.natCast_nonneg _
  omega


theorem titleHeight_le (lib : PdfLib) (item : EvidenceSpotlightItem) :
    ((lib.splitText (spotTitleText item) contentWidth 10).length * 10 * 45 : Nat) + 1200 ≤
      measureSpotBlock lib item := by
  unfold measureSpotBlock
  have h2 : (0 : Int) ≤ ((lib.splitText item.significance (contentWidth - 500) 9).length * 9 * 45 : Nat) :=
    Int.natCast_nonneg _
  omega


theorem addText_eq (lib : PdfLib) (txt : List String) (size : Nat) (indent : Int)
    (st : DocState) (h : st.y ≤ 25500) :
    addText lib txt size indent st =
      { st with
        ops := st.ops ++ [.text st.page (margin + indent) st.y
          (splitAll lib txt (contentWidth - indent) size)]
        y := st.y + ((splitAll lib txt (contentWidth - indent) size).length * size * 45 : Nat) } := by
  unfold addText checkPageBreak addOp
  rw [if_neg (by omega)]


theorem addHeader_eq (fn : String) (st : DocState) :
    addHeader fn st false =
      { st with
        y := 4700
        ops := st.ops ++
          [.text st.page (pageWidth / 2) 2000 ["DEEPSEEK VERUM OMNIS: INSTITUTIONAL REVIEW"],
           .text st.page (pageWidth / 2) 2700 ["Forensic Analysis Report: " ++ fn],
           .line st.page margin 3700 (pageWidth - margin) 3700] } := by
  simp [addHeader, addOp, List.append_assoc]


theorem addSectionTitle_eq (t : String) (st : DocState) (h : st.y ≤ 25500) :
    addSectionTitle t st =
      { st with
        y := st.y + 1200
        ops := st.ops ++
          [.rect st.page margin (st.y - 500) contentWidth 1000,
           .text st.page (margin + 300) st.y [t.toUpper]] } := by
  unfold addSectionTitle addOp
  rw [checkPageBreak_noBreak st h]
  simp [List.append_assoc]


theorem checkPageBreak_ops (st : DocState) : (checkPageBreak st).ops = st.ops := by
  unfold checkPageBreak
  split <;> rfl


theorem spotDrawPhase_eq (lib : PdfLib) (item : EvidenceSpotlightItem) (st : DocState)
    (h1 : st.y + 600 ≤ 25500)
    (h2 : st.y + 600 +
      ((splitAll lib [spotTitleText item] (contentWidth - 0) 10).length * 10 * 45 : Nat) ≤ 25500) :
    spotDrawPhase lib item st =
      { st with
        y := st.y + measureSpotBlock lib item + 400
        ops := st.ops ++
          [.rect st.page margin st.y contentWidth (measureSpotBlock lib item),
           .text st.page (margin + 0) (st.y + 600)
             (splitAll lib [spotTitleText item] (contentWidth - 0) 10),
           .text st.page (margin + 500)
             (st.y + 600 +
               ((splitAll lib [spotTitleText item] (contentWidth - 0) 10).length * 10 * 45 : Nat))
             (splitAll lib [item.significance] (contentWidth - 500) 9)] } := by
  unfold spotDrawPhase
  rw [show ({ addOp st (.rect st.page margin st.y contentWidth (measureSpotBlock lib item)) with
        y := st.y + 600 } : DocState) =
      ⟨st.page, st.y + 600,
        st.ops ++ [.rect st.page margin st.y contentWidth (measureSpotBlock lib item)]⟩ from by
    simp [addOp]]
  rw [addText_eq lib [spotTitleText item] 10 0
    ⟨st.page, st.y + 600,
      st.ops ++ [PdfOp.rect st.page margin st.y contentWidth (measureSpotBlock lib item)]⟩ h1]
  rw [addText_eq lib [item.significance] 9 500
    ⟨st.page,
      st.y + 600 +
        ((splitAll lib [spotTitleText item] (contentWidth - 0) 10).length * 10 * 45 : Nat),
      st.ops ++ [PdfOp.rect st.page margin st.y contentWidth (measureSpotBlock lib item)] ++
        [PdfOp.text st.page (margin + 0) (st.y + 600)
          (splitAll lib [spotTitleText item] (contentWidth - 0) 10)]⟩ h2]
  simp [List.append_assoc]


theorem spotBreakState (fn : String) (c : DocState) :
    addSectionTitle "Evidence Spotlight"
        (addHeader fn { c with page := c.page + 1, y := 2000 } false) =
      spotFreshState fn c := by
  simp [addHeader, addSectionTitle, addOp, checkPageBreak, spotFreshState, List.append_assoc]


theorem splitAll_title_len (lib : PdfLib) (item : EvidenceSpotlightItem) :
    (splitAll lib [spotTitleText item] (contentWidth - 0) 10).length =
      (lib.splitText (spotTitleText item) contentWidth 10).length := by
  simp [splitAll]


theorem spotItemStep_samePage (lib : PdfLib) (fn : String) (st : DocState)
    (item : EvidenceSpotlightItem)
    (hfit : spotDrawStart lib st item + measureSpotBlock lib item ≤ 26100) :
    (spotItemOps lib fn st item).all
      (fun op => opPage op == spotDrawPage lib st item) = true := by
  have hbh := measureSpotBlock_ge lib item
  have hth := titleHeight_le lib item
  have hsl := splitAll_title_len lib item
  have hops := checkPageBreak_ops st
  unfold spotItemOps spotItemStep
  simp only [spotDrawStart] at hfit
  simp only [spotDrawPage]
  generalize hc : checkPageBreak st = c
  rw [hc] at hfit hops
  by_cases hbr : c.y + measureSpotBlock lib item > 28000
  · rw [if_pos hbr] at hfit ⊢
    rw [spotBreakState fn c]
    have h1 : (spotFreshState fn c).y + 600 ≤ 25500 := by
      show (5900 : Int) + 600 ≤ 25500
      decide
    have h2 : (spotFreshState fn c).y + 600 +
        ((splitAll lib [spotTitleText item] (contentWidth - 0) 10).length * 10 * 45 : Nat) ≤
          25500 := by
      have hy : (spotFreshState fn c).y = 5900 := rfl
      rw [hy, hsl]
      omega
    rw [spotDrawPhase_eq lib item (spotFreshState fn c) h1 h2]
    simp only [spotFreshState, List.append_assoc]
    rw [← hops]
    rw [List.drop_left]
    simp [opPage]
    rw [if_pos hbr]
  · rw [if_neg hbr] at hfit ⊢
    have hy := checkPageBreak_y_le st
    rw [hc] at hy
    have h1 : c.y + 600 ≤ 25500 := by omega
    have h2 : c.y + 600 +
        ((splitAll lib [spotTitleText item] (contentWidth - 0) 10).length * 10 * 45 : Nat) ≤
          25500 := by
      rw [hsl]
      omega
    rw [spotDrawPhase_eq lib item c h1 h2]
    simp only [List.append_assoc]
    rw [← hops]
    rw [List.drop_left]
    simp [opPage]
    rw [if_neg hbr]


theorem mergeRoot_default (p : ProtoPayload) : mergeRoot payloadDefault p = normPayload p := by
  obtain ⟨pv, ts, dh, fn, cn, es, ei, pre, cls, ddm, ao, pad⟩ := p
  cases pre <;> cases ao <;> cases pad <;> rfl


/-- An unknown field (number 13, wire type 0, one varint byte) is skipped by
the generated decoder, leaving the accumulator untouched. -/
theorem runParse_unknownField (acc : ProtoPayload) :
    runParse rootHandler acc [104, 1] = .ok acc := rfl


theorem decodeReport_unknownField (r : AnalysisResult) (env : Env) :
    decodeReport (encodePayload (toProtoPayload r env) ++ [104, 1]) =
      decodeReport (encodePayload (toProtoPayload r env)) := by
  unfold decodeReport
  rw [runParse_encodePayload_gen, runParse_unknownField, runParse_encodePayload,
    mergeRoot_default]


/-- `fromProtoPayload` never reads `protocol_version` or
`analysis_timestamp_utc`. -/
theorem fromProtoPayload_meta (pv pv' : Nat) (ts ts' dh fn cn : String)
    (es : List SpotlightPayload) (ei : List IndexPayload)
    (pre : Option PreAnalysisChecksPayload) (cls : List LegalSubjectPayload)
    (ddm : List DishonestyPayload) (ao : Option ActionableOutputPayload)
    (pad : Option PostAnalysisDeclarationPayload) :
    fromProtoPayload ⟨pv, ts, dh, fn, cn, es, ei, pre, cls, ddm, ao, pad⟩ =
      fromProtoPayload ⟨pv', ts', dh, fn, cn, es, ei, pre, cls, ddm, ao, pad⟩ := rfl


theorem fromProtoPayload_incomplete (q : ProtoPayload)
    (h : q.pre_analysis_checks = none ∨ q.actionable_output = none ∨
      q.post_analysis_declaration = none) :
    ∃ msg, fromProtoPayload q = .error msg ∧ msg ≠ "" := by
  unfold fromProtoPayload
  repeat' split
  all_goals try exact ⟨_, rfl, by decide⟩
  all_goals rcases h with h | h | h <;> simp_all


/-! ## The claims -/

set_option maxRecDepth 4000 in
/-- C1 (corrected): the claim asserts `decode(encode r) = r` for *every*
well-formed Report, "preserving … the distinction between an empty sequence
and an absent field".  The wire format cannot represent an empty-but-present
repeated field: the encoder writes nothing for an empty sequence and the
decode-side conversion then fails on the missing property.  `rEmptySpot` is
well-formed per §3 (empty sequences are valid) yet `decode(encode r)` is an
error, not `r`. -/
theorem encode_decode_roundTrip_counterexample :
    wellFormed rEmptySpot = true ∧
    encodeReport rEmptySpot env0 = .ok (encodePayload (toProtoPayload rEmptySpot env0)) ∧
    decodeReport (encodePayload (toProtoPayload rEmptySpot env0)) =
      .error "TypeError: payload.evidence_spotlight is undefined" := by
  refine ⟨by decide, rfl, by rfl⟩


/-- C1 (amended): for every well-formed Report whose sequences are all
nonempty and whose page numbers fit in `uint32`, decoding the encoder's
output yields the Report back field-for-field, preserving sequence order. -/
theorem encode_decode_roundTrip (r : AnalysisResult) (env : Env)
    (hwf : wellFormed r = true) (hsafe : roundTripSafe r = true) :
    encodeReport r env = .ok (encodePayload (toProtoPayload r env)) ∧
    decodeReport (encodePayload (toProtoPayload r env)) = .ok r := by
  refine ⟨rfl, ?_⟩
  unfold decodeReport
  rw [runParse_encodePayload]
  exact fromProto_norm_toProto r env hwf hsafe


/-- C1 witness: the round trip at a concrete report containing the spec's
scenario item (`title="Contradiction A"`, `pageNumber=3`). -/
theorem encode_decode_roundTrip_witness :
    wellFormed rGood = true ∧ roundTripSafe rGood = true ∧
    (encodeReport rGood env0 = .ok (encodePayload (toProtoPayload rGood env0)) ∧
      decodeReport (encodePayload (toProtoPayload rGood env0)) = .ok rGood) :=
  ⟨by decide, by decide, encode_decode_roundTrip rGood env0 (by decide) (by decide)⟩


/-- C2 (corrected): the claim predicts a `ValidationError` for a top
liability with severity `"Low"`.  The schema types `severity` as `string`
(not an enum), so the generated verifier has no value check: encoding the
`"Low"` liability *succeeds*. -/
theorem encode_low_liability_counterexample :
    (rLowLiab.actionableOutput.map (fun a => a.topLiabilities.map (fun l => l.severity))) =
      some ["Low"] ∧
    encodeReport rLowLiab env0 = .ok (encodePayload (toProtoPayload rLowLiab env0)) :=
  ⟨rfl, rfl⟩


/-- C2 (amended): `encodeReport` performs no severity-value validation at
all — the generated verifier checks only JavaScript-level types, which a
typed Report satisfies by construction, so the verifier returns `null` and
encoding succeeds for every Report (in particular both for a legal-subject
finding with severity `"Critical"` and for a top liability with severity
`"Low"`). -/
theorem encode_no_severity_validation (r : AnalysisResult) (env : Env) :
    verifyPayload (toProtoPayload r env) = none ∧
    encodeReport r env = .ok (encodePayload (toProtoPayload r env)) :=
  ⟨rfl, rfl⟩


/-- C3 (corrected): the claim asserts a spotlight block is *never* split
across a page boundary.  With the cursor at 250mm and a block measuring
20.55mm, `startY + blockHeight = 270.55 ≤ 280` so no page break is taken,
but the drawing-phase `addText` calls run their own `checkPageBreak`: the
background rectangle lands on page 0 while the title text (cursor
250 + 6 = 256 > 255) moves to page 1 — the block is drawn split. -/
theorem spotlight_split_counterexample :
    ((checkPageBreak st250).y + measureSpotBlock lib0 spotItem1 ≤ 28000) ∧
    allSamePage (spotItemOps lib0 "f.pdf" st250 spotItem1) = false := by
  exact ⟨by decide, by decide⟩


/-- C3 (amended): when the measured block overflows the 280mm limit the
renderer does start a fresh page before drawing — the block is drawn on the
next page with the cursor reset (to 59mm, below the re-drawn header and
section title); and the block is drawn whole on a single page provided its
draw position plus measured height stays within 261mm (drawing deeper than
that can still be split by the text helper's own 255mm page-break check, as
the counterexample shows). -/
theorem spotlight_atomic_placement (lib : PdfLib) (fn : String) (st : DocState)
    (item : EvidenceSpotlightItem) :
    ((checkPageBreak st).y + measureSpotBlock lib item > 28000 →
      spotDrawPage lib st item = (checkPageBreak st).page + 1 ∧
      spotDrawStart lib st item = 5900) ∧
    (spotDrawStart lib st item + measureSpotBlock lib item ≤ 26100 →
      (spotItemOps lib fn st item).all
        (fun op => opPage op == spotDrawPage lib st item) = true) := by
  constructor
  · intro hbr
    constructor
    · simp only [spotDrawPage]
      rw [if_pos hbr]
    · simp only [spotDrawStart]
      rw [if_pos hbr]
  · exact spotItemStep_samePage lib fn st item


/-- C3 witness: the spec's 45mm-block-at-250mm scenario (under `lib45` the
block measures 45.3mm): the overflow check fires, the block moves whole to
the new page, and every command of the iteration lands on that one page. -/
theorem spotlight_atomic_placement_witness :
    ((checkPageBreak st250).y + measureSpotBlock lib45 spotItem1 > 28000) ∧
    (spotDrawStart lib45 st250 spotItem1 + measureSpotBlock lib45 spotItem1 ≤ 26100) ∧
    (spotDrawPage lib45 st250 spotItem1 = (checkPageBreak st250).page + 1 ∧
      spotDrawStart lib45 st250 spotItem1 = 5900) ∧
    (spotItemOps lib45 "f.pdf" st250 spotItem1).all
      (fun op => opPage op == spotDrawPage lib45 st250 spotItem1) = true :=
  ⟨by decide, by decide,
    (spotlight_atomic_placement lib45 "f.pdf" st250 spotItem1).1 (by decide),
    (spotlight_atomic_placement lib45 "f.pdf" st250 spotItem1).2 (by decide)⟩


/-- C4 (confirmed): rendering is deterministic — the renderer is a function
of the report, the file name and the fixed layout engine only; in
particular it never reads the ambient clock (`env`), so two invocations
with the identical report produce identical command streams. -/
theorem render_deterministic (lib : PdfLib) (r : AnalysisResult) (fn : String) (e₁ e₂ : Env) :
    generatePdfReport lib r fn e₁ = generatePdfReport lib r fn e₂ := rfl


/-- C5 (confirmed): every command the worker processes emits a sequence of
progress events followed by exactly one terminal event (success,
pdfGenerated or error) in final position; codec/renderer failures surface
as that single error event. -/
theorem worker_single_terminal_event (lib : PdfLib) (env : Env) (input : WorkerInput) :
    ∃ ps t, onmessage lib env input = ps ++ [t] ∧
      (∀ e ∈ ps, isTerminal e = false) ∧ isTerminal t = true := by
  cases input with
  | binFile f =>
    cases hd : decodeReport f with
    | error e =>
      refine ⟨[.progress "Reading file into memory...", .progress "Decoding binary report..."],
        .error (messageOr e "An unknown error occurred."), ?_, by simp [isTerminal], rfl⟩
      simp [onmessage, handleBinFile, hd]
    | ok dr =>
      cases hg : generatePdfReport lib dr dr.fileName env with
      | error e =>
        refine ⟨[.progress "Reading file into memory...", .progress "Decoding binary report...",
          .progress "Constructing PDF from report data..."],
          .error (messageOr e "An unknown error occurred."), ?_, by simp [isTerminal], rfl⟩
        simp [onmessage, handleBinFile, hd, hg]
      | ok blob =>
        refine ⟨[.progress "Reading file into memory...", .progress "Decoding binary report...",
          .progress "Constructing PDF from report data..."],
          .success blob dr.fileName dr, ?_, by simp [isTerminal], rfl⟩
        simp [onmessage, handleBinFile, hd, hg]
  | generatePdfMsg r fn =>
    cases hg : generatePdfReport lib r fn env with
    | error e =>
      refine ⟨[], .error (messageOr e "Failed to generate PDF."), ?_, by simp, rfl⟩
      simp [onmessage, handlePdfRequest, hg]
    | ok blob =>
      refine ⟨[], .pdfGenerated blob, ?_, by simp, rfl⟩
      simp [onmessage, handlePdfRequest, hg]
  | other =>
    exact ⟨[], .error "Unknown message type received by worker.", rfl, by simp, rfl⟩


/-- C6 (corrected): a buffer carrying an unrecognized field tag (field 13,
wire type 0 — not in the schema's 1–12) does *not* make the decoder fail:
the generated decoder skips unknown fields, and appending one to a valid
encoding decodes to the same Report. -/
theorem decode_unknown_tag_counterexample :
    decodeReport (encodePayload (toProtoPayload rGood env0) ++ [104, 1]) =
      .ok rGood := by
  rw [decodeReport_unknownField]
  unfold decodeReport
  rw [runParse_encodePayload]
  exact fromProto_norm_toProto rGood env0 (by decide) (by decide)


/-- C6 (amended): decoding the empty buffer fails with a nonempty message
(the empty buffer parses as an all-defaults message and the conversion then
crashes on the missing repeated field), and the empty-buffer command
produces zero success events and exactly one failure event with a nonempty
message; but an unrecognized field tag with a valid wire type is skipped,
not rejected. -/
theorem decode_failure_modes (r : AnalysisResult) (env : Env) (lib : PdfLib) :
    decodeReport [] = .error "TypeError: payload.evidence_spotlight is undefined" ∧
    (handleBinFile lib env []).filter isSuccessEvent = [] ∧
    (handleBinFile lib env []).filter isNonemptyFailure =
      [.error "TypeError: payload.evidence_spotlight is undefined"] ∧
    decodeReport (encodePayload (toProtoPayload r env) ++ [104, 1]) =
      decodeReport (encodePayload (toProtoPayload r env)) :=
  ⟨rfl, rfl, rfl, decodeReport_unknownField r env⟩


theorem encodePayload_toProto_prefix (r : AnalysisResult) (env : Env) :
    encodePayload (toProtoPayload r env) =
      8 :: 5 :: (encStrField 2 env.now ++ encodeTail (toProtoPayload r env)) := by
  simp only [encodePayload, encodeTail, toProtoPayload, PROTOCOL_VERSION, List.append_assoc]
  rfl


/-- C7 (confirmed): the encoder stamps the fixed protocol version 5 into
field 1 of every buffer (`[0x08, 0x05]` prefix), and the decoder never
enforces it: the decoded Report does not depend on the version value
carried in the buffer, and decoding never fails over a version mismatch. -/
theorem protocol_version_not_enforced (r : AnalysisResult) (env : Env) (v₁ v₂ : Nat) :
    (∃ rest, encodePayload (toProtoPayload r env) = 8 :: 5 :: rest) ∧
    decodeReport (encodePayload { toProtoPayload r env with protocol_version := v₁ }) =
      decodeReport (encodePayload { toProtoPayload r env with protocol_version := v₂ }) := by
  constructor
  · exact ⟨encStrField 2 env.now ++ encodeTail (toProtoPayload r env),
      encodePayload_toProto_prefix r env⟩
  · unfold decodeReport
    rw [runParse_encodePayload, runParse_encodePayload]
    apply fromProtoPayload_meta


/-- C8 (corrected): the claim predicts `encodeReport` fails on an
incomplete Report.  It does not: protobuf.js treats the three nested
messages as optional, so encoding a Report missing `preAnalysisChecks`
succeeds, producing a buffer that simply omits field 8. -/
theorem incomplete_report_encode_counterexample :
    rIncomplete.preAnalysisChecks = none ∧
    encodeReport rIncomplete env0 = .ok (encodePayload (toProtoPayload rIncomplete env0)) :=
  ⟨rfl, rfl⟩


/-- C8 (amended): for a Report missing any of the three nested messages,
encoding *succeeds* (the missing message is simply omitted from the wire),
while decoding the resulting buffer *fails* — the conversion crashes on the
missing message — so only the decode half of the claim holds. -/
theorem incomplete_report_codec (r : AnalysisResult) (env : Env)
    (h : r.preAnalysisChecks = none ∨ r.actionableOutput = none ∨
      r.postAnalysisDeclaration = none) :
    encodeReport r env = .ok (encodePayload (toProtoPayload r env)) ∧
    ∃ msg, decodeReport (encodePayload (toProtoPayload r env)) = .error msg ∧ msg ≠ "" := by
  refine ⟨rfl, ?_⟩
  unfold decodeReport
  rw [runParse_encodePayload]
  apply fromProtoPayload_incomplete
  rcases h with h | h | h
  · left
    simp [normPayload, toProtoPayload, h]
  · right; left
    simp [normPayload, toProtoPayload, h]
  · right; right
    simp [normPayload, toProtoPayload, h]


/-- C8 witness: the amended claim at a concrete Report missing
`preAnalysisChecks`. -/
theorem incomplete_report_codec_witness :
    (rIncomplete.preAnalysisChecks = none ∨ rIncomplete.actionableOutput = none ∨
      rIncomplete.postAnalysisDeclaration = none) ∧
    (encodeReport rIncomplete env0 = .ok (encodePayload (toProtoPayload rIncomplete env0)) ∧
      ∃ msg, decodeReport (encodePayload (toProtoPayload rIncomplete env0)) = .error msg ∧
        msg ≠ "") :=
  ⟨Or.inl rfl, incomplete_report_codec rIncomplete env0 (Or.inl rfl)⟩


/-- C9 (confirmed): neither the codec nor the renderer mutates its input
Report: at the call boundary the caller's Report after `encodeReport` and
after `generatePdfReport` is the object passed in, unchanged — the modeled
bodies contain no assignment through it (see `encodeReportCall`). -/
theorem codec_renderer_no_mutation (lib : PdfLib) (r : AnalysisResult) (fn : String)
    (env : Env) :
    (encodeReportCall r env).2 = r ∧ (generatePdfReportCall lib r fn env).2 = r :=
  ⟨rfl, rfl⟩


/-- C10 (confirmed): the encoder writes both wire-metadata fields into every
buffer — field 1 (`protocol_version`, value 5) and field 2
(`analysis_timestamp_utc`, the encode-time clock) — yet the decoded Report
retains neither: the decode result is unchanged under arbitrary changes to
the stored version value and to the encode-time clock, so the two fields
are not recoverable from a decoded Report. -/
theorem wire_metadata_discarded (r : AnalysisResult) (env₁ env₂ : Env) (v₁ v₂ : Nat) :
    (∃ rest, encodePayload (toProtoPayload r env₁) =
      8 :: 5 :: (encStrField 2 env₁.now ++ rest)) ∧
    decodeReport (encodePayload { toProtoPayload r env₁ with protocol_version := v₁ }) =
      decodeReport (encodePayload { toProtoPayload r env₂ with protocol_version := v₂ }) := by
  constructor
  · exact ⟨encodeTail (toProtoPayload r env₁), encodePayload_toProto_prefix r env₁⟩
  · unfold decodeReport
    rw [runParse_encodePayload, runParse_encodePayload]
    apply fromProtoPayload_meta
